import Mathlib

/-!
The HTTP front end of the registry, `cruciblehq/hub`.

A shallow embedding of `internal/server` (helpers.go, handler.go, namespaces.go,
resources.go, versions.go, channels.go) and theorems about it.

The packages `codec` and `registry` of `cruciblehq/protocol`, and the provider
behind the `registry.Registry` interface, are collaborators declared outside
this repository.  They enter the embedding as the fields of `Deps` and
`Registry`; the calls that read the request body or reach the provider are
appended to a log, so that "is called with" and "is never called" are
properties of a handler's result.
-/

namespace Hub

/-! ## Data model -/

/-- A byte sequence: a request body, a response body or an archive stream. -/
abbrev Bytes := List UInt8

/-- The error codes of `registry.ErrorCode` named in `errorCodeToHTTPStatus`
and in the tests, one constructor per constant, and `other` for every code
outside the enumeration. -/
inductive ErrorCode where
  | BadRequest
  | NotFound
  | NamespaceExists
  | ResourceExists
  | VersionExists
  | ChannelExists
  | NamespaceNotEmpty
  | ResourceHasPublished
  | VersionPublished
  | PreconditionFailed
  | UnsupportedMediaType
  | NotAcceptable
  | InternalError
  | other (raw : String)
  deriving DecidableEq, Repr

/-- The domain error `registry.Error`: a code and a message. -/
structure RegistryError where
  Code : ErrorCode
  Message : String
  deriving DecidableEq, Repr

/-- A Go `error` value, as far as the handlers can tell errors apart: the type
assertion `err.(*registry.Error)` succeeds on `registry` only, and every error
has the text of its `Error()` method. -/
inductive GoError where
  /-- a `*registry.Error`; `text` is what its `Error()` method returns -/
  | registry (e : RegistryError) (text : String)
  /-- any other error value that wraps nothing -/
  | plain (text : String)
  /-- the `*fmt.wrapError` built by `fmt.Errorf` with one `%w` verb -/
  | wrapError (text : String) (err : GoError)
  deriving DecidableEq, Repr

/-- The method `Error()` of an error value. -/
def GoError.Error : GoError → String
  | .registry _ text => text
  | .plain text => text
  | .wrapError text _ => text

/-- The type assertion `err.(*registry.Error)`: it looks at the dynamic type of
the value itself and does not unwrap. -/
def GoError.asRegistry : GoError → Option RegistryError
  | .registry e _ => some e
  | .plain _ => none
  | .wrapError _ _ => none

/-- The type `registry.MediaType`: a media kind is a string. -/
abbrev MediaType := String

/-- The request body of the namespace create and update operations. -/
structure NamespaceInfo where
  Name : String
  Description : String
  deriving DecidableEq, Repr

/-- The request body of the resource create and update operations. -/
structure ResourceInfo where
  Name : String
  Typ : String
  Description : String
  deriving DecidableEq, Repr

/-- The request body of the version create and update operations. -/
structure VersionInfo where
  String : String
  deriving DecidableEq, Repr

/-- The request body of the channel create and update operations. -/
structure ChannelInfo where
  Name : String
  Version : String
  Description : String
  deriving DecidableEq, Repr

/-- The zero value of `registry.NamespaceInfo`, as `var info` declares it. -/
def NamespaceInfo.zero : NamespaceInfo := { Name := "", Description := "" }

/-- The zero value of `registry.ResourceInfo`. -/
def ResourceInfo.zero : ResourceInfo := { Name := "", Typ := "", Description := "" }

/-- The zero value of `registry.VersionInfo`. -/
def VersionInfo.zero : VersionInfo := { String := "" }

/-- The zero value of `registry.ChannelInfo`. -/
def ChannelInfo.zero : ChannelInfo := { Name := "", Version := "", Description := "" }

/-- An entry of a namespace list. -/
structure NamespaceSummary where
  Name : String
  Description : String
  deriving DecidableEq, Repr

/-- An entry of a resource list. -/
structure ResourceSummary where
  Name : String
  Typ : String
  Description : String
  deriving DecidableEq, Repr

/-- An entry of a version list. -/
structure VersionSummary where
  String : String
  deriving DecidableEq, Repr

/-- An entry of a channel list. -/
structure ChannelSummary where
  Name : String
  Version : String
  Description : String
  deriving DecidableEq, Repr

/-- A namespace as the provider returns it. -/
structure Namespace where
  Name : String
  Description : String
  CreatedAt : Int
  UpdatedAt : Int
  deriving DecidableEq, Repr

/-- A resource as the provider returns it. -/
structure Resource where
  Namespace : String
  Name : String
  Typ : String
  Description : String
  CreatedAt : Int
  UpdatedAt : Int
  deriving DecidableEq, Repr

/-- A version as the provider returns it. -/
structure Version where
  Namespace : String
  Resource : String
  String : String
  CreatedAt : Int
  UpdatedAt : Int
  deriving DecidableEq, Repr

/-- A channel as the provider returns it; `Version` is the version it refers to. -/
structure Channel where
  Namespace : String
  Resource : String
  Name : String
  Version : Version
  Description : String
  CreatedAt : Int
  UpdatedAt : Int
  deriving DecidableEq, Repr

/-- The result of listing namespaces. -/
structure NamespaceList where
  Namespaces : List NamespaceSummary
  deriving DecidableEq, Repr

/-- The result of listing resources. -/
structure ResourceList where
  Resources : List ResourceSummary
  deriving DecidableEq, Repr

/-- The result of listing versions. -/
structure VersionList where
  Versions : List VersionSummary
  deriving DecidableEq, Repr

/-- The result of listing channels. -/
structure ChannelList where
  Channels : List ChannelSummary
  deriving DecidableEq, Repr

/-- The values a handler hands to `codec.Encode` as `interface{}`. -/
inductive Value where
  | namespaceList (l : NamespaceList)
  | namespace (n : Namespace)
  | resourceList (l : ResourceList)
  | resource (r : Resource)
  | versionList (l : VersionList)
  | version (v : Version)
  | channelList (l : ChannelList)
  | channel (c : Channel)
  | error (e : RegistryError)
  deriving DecidableEq, Repr

/-! ## helpers.go: the status table -/

/-- The method `errorCodeToHTTPStatus` of helpers.go: the switch over the code. -/
def errorCodeToHTTPStatus (code : ErrorCode) : Nat :=
  match code with
  | .BadRequest => 400
  | .NotFound => 404
  | .NamespaceExists | .ResourceExists | .VersionExists | .ChannelExists
  | .NamespaceNotEmpty | .ResourceHasPublished | .VersionPublished => 409
  | .PreconditionFailed => 412
  | .UnsupportedMediaType => 415
  | .NotAcceptable => 406
  | _ => 500

/-! ## The HTTP request and the response writer -/

/-- The value under `key` in a list of pairs, `""` when there is none: what
`Header.Get` and `PathValue` return. -/
def lookup (kvs : List (String × String)) (key : String) : String :=
  match kvs.find? (fun kv => kv.1 == key) with
  | some kv => kv.2
  | none => ""

/-- The part of `*http.Request` the handlers read: the headers (under their
canonical names), the wildcards matched by the route, and the body. -/
structure Request where
  Header : List (String × String)
  PathValues : List (String × String)
  Body : Bytes
  deriving DecidableEq, Repr

/-- The call `r.Header.Get(key)`. -/
def Request.HeaderGet (r : Request) (key : String) : String :=
  lookup r.Header key

/-- The call `r.PathValue(name)`. -/
def Request.PathValue (r : Request) (name : String) : String :=
  lookup r.PathValues name

/-- The state of an `http.ResponseWriter`: the header map, whether the status
line has been written, the status, and the body written so far.  A response
whose status was never written explicitly goes out as 200. -/
structure ResponseWriter where
  header : List (String × String)
  wroteHeader : Bool
  status : Nat
  body : Bytes
  deriving DecidableEq, Repr

/-- The writer a handler starts with. -/
def ResponseWriter.new : ResponseWriter :=
  { header := [], wroteHeader := false, status := 200, body := [] }

/-- The call `w.Header().Set(key, value)`: it replaces the values under `key`;
once the status line is written the headers that go out no longer change. -/
def ResponseWriter.HeaderSet (w : ResponseWriter) (key value : String) : ResponseWriter :=
  if w.wroteHeader then w
  else { w with header := (key, value) :: w.header.filter (fun kv => !(kv.1 == key)) }

/-- The call `w.WriteHeader(status)`: only the first one counts. -/
def ResponseWriter.WriteHeader (w : ResponseWriter) (status : Nat) : ResponseWriter :=
  if w.wroteHeader then w
  else { w with wroteHeader := true, status := status }

/-- The call `w.Write(b)`: it writes the status line as 200 when none was
written, then appends to the body. -/
def ResponseWriter.Write (w : ResponseWriter) (b : Bytes) : ResponseWriter :=
  let w1 := w.WriteHeader 200
  { w1 with body := w1.body ++ b }

/-- The value of a response header, `""` when it is not set. -/
def ResponseWriter.HeaderGet (w : ResponseWriter) (key : String) : String :=
  lookup w.header key

/-- Whether a response header is set at all. -/
def ResponseWriter.hasHeader (w : ResponseWriter) (key : String) : Bool :=
  w.header.any (fun kv => kv.1 == key)

/-! ## The collaborators -/

/-- What the package takes from `cruciblehq/protocol` and from the Go library,
for a type `F` of serialization formats: the media kind constants, the four
functions of `codec` and the method `Suffix` of a format, and the behaviour of
`strings.EqualFold` and `url.JoinPath` outside the inputs on which
`EqualFold` and `JoinPath` below compute them. -/
structure Deps (F : Type) where
  MediaTypeNamespace : MediaType
  MediaTypeNamespaceInfo : MediaType
  MediaTypeNamespaceList : MediaType
  MediaTypeResource : MediaType
  MediaTypeResourceInfo : MediaType
  MediaTypeResourceList : MediaType
  MediaTypeVersion : MediaType
  MediaTypeVersionInfo : MediaType
  MediaTypeVersionList : MediaType
  MediaTypeChannel : MediaType
  MediaTypeChannelInfo : MediaType
  MediaTypeChannelList : MediaType
  MediaTypeError : MediaType
  MediaTypeArchive : MediaType
  /-- the function `codec.Parse`: the format and the base media kind of a header -/
  Parse : String → Except GoError (F × String)
  /-- the function `codec.Negotiate`, from the `Accept` header -/
  Negotiate : String → F
  /-- the method `Suffix` of a format -/
  Suffix : F → String
  /-- the function `codec.Encode`: the bytes it writes and the error it returns -/
  Encode : F → Value → Bytes × Option GoError
  /-- the function `codec.Decode` into a `*registry.NamespaceInfo`: the target
  afterwards and the error it returns -/
  DecodeNamespaceInfo : Bytes → F → NamespaceInfo → NamespaceInfo × Option GoError
  /-- the function `codec.Decode` into a `*registry.ResourceInfo` -/
  DecodeResourceInfo : Bytes → F → ResourceInfo → ResourceInfo × Option GoError
  /-- the function `codec.Decode` into a `*registry.VersionInfo` -/
  DecodeVersionInfo : Bytes → F → VersionInfo → VersionInfo × Option GoError
  /-- the function `codec.Decode` into a `*registry.ChannelInfo` -/
  DecodeChannelInfo : Bytes → F → ChannelInfo → ChannelInfo × Option GoError
  /-- the function `strings.EqualFold` when one of the strings is not ASCII -/
  EqualFoldUnicode : String → String → Bool
  /-- the function `url.JoinPath` when an element needs cleaning or escaping -/
  JoinPathGeneral : String → List String → String

/-- The provider: the interface `registry.Registry`, one field per method.  A
method that returns `(value, error)` is a function into `Except`, a method
that returns `error` a function into `Option`; an archive stream is the bytes
it yields. -/
structure Registry where
  ListNamespaces : Except GoError NamespaceList
  CreateNamespace : NamespaceInfo → Except GoError Namespace
  ReadNamespace : String → Except GoError Namespace
  UpdateNamespace : String → NamespaceInfo → Except GoError Namespace
  DeleteNamespace : String → Option GoError
  ListResources : String → Except GoError ResourceList
  CreateResource : String → ResourceInfo → Except GoError Resource
  ReadResource : String → String → Except GoError Resource
  UpdateResource : String → String → ResourceInfo → Except GoError Resource
  DeleteResource : String → String → Option GoError
  ListVersions : String → String → Except GoError VersionList
  CreateVersion : String → String → VersionInfo → Except GoError Version
  ReadVersion : String → String → String → Except GoError Version
  UpdateVersion : String → String → String → VersionInfo → Except GoError Version
  DeleteVersion : String → String → String → Option GoError
  UploadArchive : String → String → String → Bytes → Except GoError Version
  DownloadArchive : String → String → String → Except GoError Bytes
  ListChannels : String → String → Except GoError ChannelList
  CreateChannel : String → String → ChannelInfo → Except GoError Channel
  ReadChannel : String → String → String → Except GoError Channel
  UpdateChannel : String → String → String → ChannelInfo → Except GoError Channel
  DeleteChannel : String → String → String → Option GoError

/-- A logged call: `Decode` is `codec.Decode` reading the request body, every
other constructor is a method of the provider with the arguments it received. -/
inductive Call where
  | Decode (body : Bytes)
  | ListNamespaces
  | CreateNamespace (info : NamespaceInfo)
  | ReadNamespace (ns : String)
  | UpdateNamespace (ns : String) (info : NamespaceInfo)
  | DeleteNamespace (ns : String)
  | ListResources (ns : String)
  | CreateResource (ns : String) (info : ResourceInfo)
  | ReadResource (ns res : String)
  | UpdateResource (ns res : String) (info : ResourceInfo)
  | DeleteResource (ns res : String)
  | ListVersions (ns res : String)
  | CreateVersion (ns res : String) (info : VersionInfo)
  | ReadVersion (ns res ver : String)
  | UpdateVersion (ns res ver : String) (info : VersionInfo)
  | DeleteVersion (ns res ver : String)
  | UploadArchive (ns res ver : String) (archive : Bytes)
  | DownloadArchive (ns res ver : String)
  | ListChannels (ns res : String)
  | CreateChannel (ns res : String) (info : ChannelInfo)
  | ReadChannel (ns res ch : String)
  | UpdateChannel (ns res ch : String) (info : ChannelInfo)
  | DeleteChannel (ns res ch : String)
  deriving DecidableEq, Repr

/-- Whether a logged call went to the provider. -/
def Call.isProvider : Call → Bool
  | .Decode _ => false
  | _ => true

/-- A logged call together with the error it returned, if any. -/
structure Invocation where
  call : Call
  err : Option GoError
  deriving DecidableEq, Repr

/-- The error of an `Except` result, if any. -/
def errOf {α : Type} : Except GoError α → Option GoError
  | .error e => some e
  | .ok _ => none

/-- What a handler leaves behind: the response and the calls it made, in order. -/
structure State where
  w : ResponseWriter
  log : List Invocation
  deriving DecidableEq, Repr

/-! ## The two library functions -/

/-- Whether every character of a string is ASCII. -/
def isASCII (s : String) : Bool :=
  s.data.all (fun c => decide (c.toNat < 128))

/-- The function `strings.EqualFold`: on ASCII strings, equality after
lowering the letters `A` to `Z`; the Unicode case is left to `d`. -/
def EqualFold {F : Type} (d : Deps F) (s t : String) : Bool :=
  if isASCII s && isASCII t then
    decide (s.data.map Char.toLower = t.data.map Char.toLower)
  else d.EqualFoldUnicode s t

/-- A character that neither `path.Join` nor the escaping of a URL path
touches: an ASCII letter or digit, or one of `-`, `.`, `_`, `~`, `+`. -/
def plainChar (c : Char) : Bool :=
  c.isAlphanum || c == '-' || c == '.' || c == '_' || c == '~' || c == '+'

/-- A path element that `url.JoinPath` appends as it is: not empty, made of
plain characters, and neither `.` nor `..`. -/
def plainSegment (s : String) : Bool :=
  !s.data.isEmpty && s.data.all plainChar && !(s == ".") && !(s == "..")

/-- The function `url.JoinPath` (its error is dropped by every caller): for a
base that is `/` and one plain segment and plain elements, the base followed
by `/` and each element; every other case is left to `d`. -/
def JoinPath {F : Type} (d : Deps F) (base : String) (elem : List String) : String :=
  match base.data with
  | '/' :: rest =>
    if plainSegment ⟨rest⟩ && elem.all plainSegment then
      elem.foldl (fun acc e => acc ++ "/" ++ e) base
    else d.JoinPathGeneral base elem
  | _ => d.JoinPathGeneral base elem

/-! ## helpers.go -/

/-- The method `decode` of helpers.go, for the `codec.Decode` of the target
type `dec`.  It returns the target afterwards, the error, and the log. -/
def decode {F α : Type} (d : Deps F) (dec : Bytes → F → α → α × Option GoError)
    (r : Request) (expected : MediaType) (v : α) (log : List Invocation) :
    α × Option GoError × List Invocation :=
  let header := r.HeaderGet "Content-Type"
  match d.Parse header with
  | .error err =>
    (v, some (.wrapError ("invalid Content-Type: " ++ err.Error) err), log)
  | .ok (contentType, mediaType) =>
    if !EqualFold d mediaType expected then
      (v, some (.plain ("expected Content-Type " ++ expected ++ "+\x7bformat\x7d, got " ++ header)), log)
    else
      let out := dec r.Body contentType v
      (out.1, out.2, log ++ [⟨.Decode r.Body, out.2⟩])

/-- The method `encode` of helpers.go: the writer afterwards and the error of
`codec.Encode`. -/
def encode {F : Type} (d : Deps F) (w : ResponseWriter) (r : Request)
    (mediaType : MediaType) (status : Nat) (v : Value) : ResponseWriter × Option GoError :=
  let format := d.Negotiate (r.HeaderGet "Accept")
  let w1 := w.HeaderSet "Content-Type" (mediaType ++ d.Suffix format)
  let w2 := w1.WriteHeader status
  let out := d.Encode format v
  (w2.Write out.1, out.2)

/-- The method `fail` of helpers.go; it drops the error of `encode`. -/
def fail {F : Type} (d : Deps F) (w : ResponseWriter) (r : Request)
    (code : ErrorCode) (message : String) (status : Nat) : ResponseWriter :=
  (encode d w r d.MediaTypeError status (.error { Code := code, Message := message })).1

/-- The method `failWithError` of helpers.go. -/
def failWithError {F : Type} (d : Deps F) (w : ResponseWriter) (r : Request)
    (err : GoError) : ResponseWriter :=
  match err.asRegistry with
  | some regErr => fail d w r regErr.Code regErr.Message (errorCodeToHTTPStatus regErr.Code)
  | none => fail d w r .InternalError err.Error 500

/-! ## namespaces.go

The path parameter `namespace` is written `nspace`. -/

/-- The handler `listNamespaces`. -/
def listNamespaces {F : Type} (d : Deps F) (reg : Registry) (w : ResponseWriter) (r : Request) : State :=
  match reg.ListNamespaces with
  | .error err => ⟨failWithError d w r err, [⟨.ListNamespaces, some err⟩]⟩
  | .ok list =>
    ⟨(encode d w r d.MediaTypeNamespaceList 200 (.namespaceList list)).1,
      [⟨.ListNamespaces, none⟩]⟩

/-- The handler `createNamespace`. -/
def createNamespace {F : Type} (d : Deps F) (reg : Registry) (w : ResponseWriter) (r : Request) : State :=
  match decode d d.DecodeNamespaceInfo r d.MediaTypeNamespaceInfo NamespaceInfo.zero [] with
  | (_, some err, log) => ⟨fail d w r .BadRequest err.Error 400, log⟩
  | (info, none, log) =>
    match reg.CreateNamespace info with
    | .error err => ⟨failWithError d w r err, log ++ [⟨.CreateNamespace info, some err⟩]⟩
    | .ok ns =>
      let path := JoinPath d "/namespaces" [ns.Name]
      let w1 := w.HeaderSet "Location" path
      ⟨(encode d w1 r d.MediaTypeNamespace 201 (.namespace ns)).1,
        log ++ [⟨.CreateNamespace info, none⟩]⟩

/-- The handler `readNamespace`. -/
def readNamespace {F : Type} (d : Deps F) (reg : Registry) (w : ResponseWriter) (r : Request) : State :=
  let nspace := r.PathValue "namespace"
  match reg.ReadNamespace nspace with
  | .error err => ⟨failWithError d w r err, [⟨.ReadNamespace nspace, some err⟩]⟩
  | .ok ns =>
    ⟨(encode d w r d.MediaTypeNamespace 200 (.namespace ns)).1, [⟨.ReadNamespace nspace, none⟩]⟩

/-- The handler `updateNamespace`. -/
def updateNamespace {F : Type} (d : Deps F) (reg : Registry) (w : ResponseWriter) (r : Request) : State :=
  let nspace := r.PathValue "namespace"
  match decode d d.DecodeNamespaceInfo r d.MediaTypeNamespaceInfo NamespaceInfo.zero [] with
  | (_, some err, log) => ⟨fail d w r .BadRequest err.Error 400, log⟩
  | (info, none, log) =>
    match reg.UpdateNamespace nspace info with
    | .error err => ⟨failWithError d w r err, log ++ [⟨.UpdateNamespace nspace info, some err⟩]⟩
    | .ok ns =>
      ⟨(encode d w r d.MediaTypeNamespace 200 (.namespace ns)).1,
        log ++ [⟨.UpdateNamespace nspace info, none⟩]⟩

/-- The handler `deleteNamespace`. -/
def deleteNamespace {F : Type} (d : Deps F) (reg : Registry) (w : ResponseWriter) (r : Request) : State :=
  let nspace := r.PathValue "namespace"
  match reg.DeleteNamespace nspace with
  | some err => ⟨failWithError d w r err, [⟨.DeleteNamespace nspace, some err⟩]⟩
  | none => ⟨w.WriteHeader 204, [⟨.DeleteNamespace nspace, none⟩]⟩

/-! ## resources.go -/

/-- The handler `listResources`. -/
def listResources {F : Type} (d : Deps F) (reg : Registry) (w : ResponseWriter) (r : Request) : State :=
  let nspace := r.PathValue "namespace"
  match reg.ListResources nspace with
  | .error err => ⟨failWithError d w r err, [⟨.ListResources nspace, some err⟩]⟩
  | .ok list =>
    ⟨(encode d w r d.MediaTypeResourceList 200 (.resourceList list)).1,
      [⟨.ListResources nspace, none⟩]⟩

/-- The handler `createResource`. -/
def createResource {F : Type} (d : Deps F) (reg : Registry) (w : ResponseWriter) (r : Request) : State :=
  let nspace := r.PathValue "namespace"
  match decode d d.DecodeResourceInfo r d.MediaTypeResourceInfo ResourceInfo.zero [] with
  | (_, some err, log) => ⟨fail d w r .BadRequest err.Error 400, log⟩
  | (info, none, log) =>
    match reg.CreateResource nspace info with
    | .error err => ⟨failWithError d w r err, log ++ [⟨.CreateResource nspace info, some err⟩]⟩
    | .ok res =>
      let path := JoinPath d "/namespaces" [nspace, "resources", res.Name]
      let w1 := w.HeaderSet "Location" path
      ⟨(encode d w1 r d.MediaTypeResource 201 (.resource res)).1,
        log ++ [⟨.CreateResource nspace info, none⟩]⟩

/-- The handler `readResource`. -/
def readResource {F : Type} (d : Deps F) (reg : Registry) (w : ResponseWriter) (r : Request) : State :=
  let nspace := r.PathValue "namespace"
  let resource := r.PathValue "resource"
  match reg.ReadResource nspace resource with
  | .error err => ⟨failWithError d w r err, [⟨.ReadResource nspace resource, some err⟩]⟩
  | .ok res =>
    ⟨(encode d w r d.MediaTypeResource 200 (.resource res)).1, [⟨.ReadResource nspace resource, none⟩]⟩

/-- The handler `updateResource`. -/
def updateResource {F : Type} (d : Deps F) (reg : Registry) (w : ResponseWriter) (r : Request) : State :=
  let nspace := r.PathValue "namespace"
  let resource := r.PathValue "resource"
  match decode d d.DecodeResourceInfo r d.MediaTypeResourceInfo ResourceInfo.zero [] with
  | (_, some err, log) => ⟨fail d w r .BadRequest err.Error 400, log⟩
  | (info, none, log) =>
    match reg.UpdateResource nspace resource info with
    | .error err => ⟨failWithError d w r err, log ++ [⟨.UpdateResource nspace resource info, some err⟩]⟩
    | .ok res =>
      ⟨(encode d w r d.MediaTypeResource 200 (.resource res)).1,
        log ++ [⟨.UpdateResource nspace resource info, none⟩]⟩

/-- The handler `deleteResource`. -/
def deleteResource {F : Type} (d : Deps F) (reg : Registry) (w : ResponseWriter) (r : Request) : State :=
  let nspace := r.PathValue "namespace"
  let resource := r.PathValue "resource"
  match reg.DeleteResource nspace resource with
  | some err => ⟨failWithError d w r err, [⟨.DeleteResource nspace resource, some err⟩]⟩
  | none => ⟨w.WriteHeader 204, [⟨.DeleteResource nspace resource, none⟩]⟩

/-! ## versions.go -/

/-- The handler `listVersions`. -/
def listVersions {F : Type} (d : Deps F) (reg : Registry) (w : ResponseWriter) (r : Request) : State :=
  let nspace := r.PathValue "namespace"
  let resource := r.PathValue "resource"
  match reg.ListVersions nspace resource with
  | .error err => ⟨failWithError d w r err, [⟨.ListVersions nspace resource, some err⟩]⟩
  | .ok list =>
    ⟨(encode d w r d.MediaTypeVersionList 200 (.versionList list)).1,
      [⟨.ListVersions nspace resource, none⟩]⟩

/-- The handler `createVersion`. -/
def createVersion {F : Type} (d : Deps F) (reg : Registry) (w : ResponseWriter) (r : Request) : State :=
  let nspace := r.PathValue "namespace"
  let resource := r.PathValue "resource"
  match decode d d.DecodeVersionInfo r d.MediaTypeVersionInfo VersionInfo.zero [] with
  | (_, some err, log) => ⟨fail d w r .BadRequest err.Error 400, log⟩
  | (info, none, log) =>
    match reg.CreateVersion nspace resource info with
    | .error err => ⟨failWithError d w r err, log ++ [⟨.CreateVersion nspace resource info, some err⟩]⟩
    | .ok ver =>
      let path := JoinPath d "/namespaces" [nspace, "resources", resource, "versions", ver.String]
      let w1 := w.HeaderSet "Location" path
      ⟨(encode d w1 r d.MediaTypeVersion 201 (.version ver)).1,
        log ++ [⟨.CreateVersion nspace resource info, none⟩]⟩

/-- The handler `readVersion`. -/
def readVersion {F : Type} (d : Deps F) (reg : Registry) (w : ResponseWriter) (r : Request) : State :=
  let nspace := r.PathValue "namespace"
  let resource := r.PathValue "resource"
  let version := r.PathValue "version"
  match reg.ReadVersion nspace resource version with
  | .error err => ⟨failWithError d w r err, [⟨.ReadVersion nspace resource version, some err⟩]⟩
  | .ok ver =>
    ⟨(encode d w r d.MediaTypeVersion 200 (.version ver)).1, [⟨.ReadVersion nspace resource version, none⟩]⟩

/-- The handler `updateVersion`. -/
def updateVersion {F : Type} (d : Deps F) (reg : Registry) (w : ResponseWriter) (r : Request) : State :=
  let nspace := r.PathValue "namespace"
  let resource := r.PathValue "resource"
  let version := r.PathValue "version"
  match decode d d.DecodeVersionInfo r d.MediaTypeVersionInfo VersionInfo.zero [] with
  | (_, some err, log) => ⟨fail d w r .BadRequest err.Error 400, log⟩
  | (info, none, log) =>
    match reg.UpdateVersion nspace resource version info with
    | .error err => ⟨failWithError d w r err, log ++ [⟨.UpdateVersion nspace resource version info, some err⟩]⟩
    | .ok ver =>
      ⟨(encode d w r d.MediaTypeVersion 200 (.version ver)).1,
        log ++ [⟨.UpdateVersion nspace resource version info, none⟩]⟩

/-- The handler `deleteVersion`. -/
def deleteVersion {F : Type} (d : Deps F) (reg : Registry) (w : ResponseWriter) (r : Request) : State :=
  let nspace := r.PathValue "namespace"
  let resource := r.PathValue "resource"
  let version := r.PathValue "version"
  match reg.DeleteVersion nspace resource version with
  | some err => ⟨failWithError d w r err, [⟨.DeleteVersion nspace resource version, some err⟩]⟩
  | none => ⟨w.WriteHeader 204, [⟨.DeleteVersion nspace resource version, none⟩]⟩

/-- The handler `uploadArchive`: the request body goes to the provider as it is. -/
def uploadArchive {F : Type} (d : Deps F) (reg : Registry) (w : ResponseWriter) (r : Request) : State :=
  let nspace := r.PathValue "namespace"
  let resource := r.PathValue "resource"
  let version := r.PathValue "version"
  match reg.UploadArchive nspace resource version r.Body with
  | .error err =>
    ⟨failWithError d w r err, [⟨.UploadArchive nspace resource version r.Body, some err⟩]⟩
  | .ok ver =>
    ⟨(encode d w r d.MediaTypeVersion 200 (.version ver)).1,
      [⟨.UploadArchive nspace resource version r.Body, none⟩]⟩

/-- The handler `downloadArchive`: `io.Copy` writes the stream to the response. -/
def downloadArchive {F : Type} (d : Deps F) (reg : Registry) (w : ResponseWriter) (r : Request) : State :=
  let nspace := r.PathValue "namespace"
  let resource := r.PathValue "resource"
  let version := r.PathValue "version"
  match reg.DownloadArchive nspace resource version with
  | .error err =>
    ⟨failWithError d w r err, [⟨.DownloadArchive nspace resource version, some err⟩]⟩
  | .ok archive =>
    let w1 := w.HeaderSet "Content-Type" d.MediaTypeArchive
    let w2 := w1.HeaderSet "Content-Disposition"
      ("attachment; filename=\"" ++ resource ++ "-" ++ version ++ ".tar.zst\"")
    ⟨w2.Write archive, [⟨.DownloadArchive nspace resource version, none⟩]⟩

/-! ## channels.go -/

/-- The handler `listChannels`. -/
def listChannels {F : Type} (d : Deps F) (reg : Registry) (w : ResponseWriter) (r : Request) : State :=
  let nspace := r.PathValue "namespace"
  let resource := r.PathValue "resource"
  match reg.ListChannels nspace resource with
  | .error err => ⟨failWithError d w r err, [⟨.ListChannels nspace resource, some err⟩]⟩
  | .ok list =>
    ⟨(encode d w r d.MediaTypeChannelList 200 (.channelList list)).1,
      [⟨.ListChannels nspace resource, none⟩]⟩

/-- The handler `createChannel`. -/
def createChannel {F : Type} (d : Deps F) (reg : Registry) (w : ResponseWriter) (r : Request) : State :=
  let nspace := r.PathValue "namespace"
  let resource := r.PathValue "resource"
  match decode d d.DecodeChannelInfo r d.MediaTypeChannelInfo ChannelInfo.zero [] with
  | (_, some err, log) => ⟨fail d w r .BadRequest err.Error 400, log⟩
  | (info, none, log) =>
    match reg.CreateChannel nspace resource info with
    | .error err => ⟨failWithError d w r err, log ++ [⟨.CreateChannel nspace resource info, some err⟩]⟩
    | .ok ch =>
      ⟨(encode d w r d.MediaTypeChannel 201 (.channel ch)).1,
        log ++ [⟨.CreateChannel nspace resource info, none⟩]⟩

/-- The handler `updateChannel`. -/
def updateChannel {F : Type} (d : Deps F) (reg : Registry) (w : ResponseWriter) (r : Request) : State :=
  let nspace := r.PathValue "namespace"
  let resource := r.PathValue "resource"
  let channel := r.PathValue "channel"
  match decode d d.DecodeChannelInfo r d.MediaTypeChannelInfo ChannelInfo.zero [] with
  | (_, some err, log) => ⟨fail d w r .BadRequest err.Error 400, log⟩
  | (info, none, log) =>
    match reg.UpdateChannel nspace resource channel info with
    | .error err => ⟨failWithError d w r err, log ++ [⟨.UpdateChannel nspace resource channel info, some err⟩]⟩
    | .ok ch =>
      ⟨(encode d w r d.MediaTypeChannel 200 (.channel ch)).1,
        log ++ [⟨.UpdateChannel nspace resource channel info, none⟩]⟩

/-- The handler `readChannel`. -/
def readChannel {F : Type} (d : Deps F) (reg : Registry) (w : ResponseWriter) (r : Request) : State :=
  let nspace := r.PathValue "namespace"
  let resource := r.PathValue "resource"
  let channel := r.PathValue "channel"
  match reg.ReadChannel nspace resource channel with
  | .error err => ⟨failWithError d w r err, [⟨.ReadChannel nspace resource channel, some err⟩]⟩
  | .ok ch =>
    ⟨(encode d w r d.MediaTypeChannel 200 (.channel ch)).1, [⟨.ReadChannel nspace resource channel, none⟩]⟩

/-- The handler `deleteChannel`. -/
def deleteChannel {F : Type} (d : Deps F) (reg : Registry) (w : ResponseWriter) (r : Request) : State :=
  let nspace := r.PathValue "namespace"
  let resource := r.PathValue "resource"
  let channel := r.PathValue "channel"
  match reg.DeleteChannel nspace resource channel with
  | some err => ⟨failWithError d w r err, [⟨.DeleteChannel nspace resource channel, some err⟩]⟩
  | none => ⟨w.WriteHeader 204, [⟨.DeleteChannel nspace resource channel, none⟩]⟩

/-- The handler `downloadChannelArchive`: it reads the channel, then downloads
the archive of the version the channel refers to. -/
def downloadChannelArchive {F : Type} (d : Deps F) (reg : Registry) (w : ResponseWriter) (r : Request) : State :=
  let nspace := r.PathValue "namespace"
  let resource := r.PathValue "resource"
  let channel := r.PathValue "channel"
  match reg.ReadChannel nspace resource channel with
  | .error err =>
    ⟨failWithError d w r err, [⟨.ReadChannel nspace resource channel, some err⟩]⟩
  | .ok ch =>
    match reg.DownloadArchive nspace resource ch.Version.String with
    | .error err =>
      ⟨failWithError d w r err,
        [⟨.ReadChannel nspace resource channel, none⟩,
         ⟨.DownloadArchive nspace resource ch.Version.String, some err⟩]⟩
    | .ok archive =>
      let w1 := w.HeaderSet "Content-Type" d.MediaTypeArchive
      let w2 := w1.HeaderSet "Content-Disposition"
        ("attachment; filename=\"" ++ resource ++ "-" ++ channel ++ ".tar.zst\"")
      ⟨w2.Write archive,
        [⟨.ReadChannel nspace resource channel, none⟩,
         ⟨.DownloadArchive nspace resource ch.Version.String, none⟩]⟩

/-! ## handler.go: the handlers bound by `NewHandler` -/

/-- The twenty-three handler methods that `NewHandler` registers. -/
inductive Op where
  | listNamespaces
  | createNamespace
  | readNamespace
  | updateNamespace
  | deleteNamespace
  | listResources
  | createResource
  | readResource
  | updateResource
  | deleteResource
  | listVersions
  | createVersion
  | readVersion
  | updateVersion
  | deleteVersion
  | uploadArchive
  | downloadArchive
  | listChannels
  | createChannel
  | readChannel
  | updateChannel
  | deleteChannel
  | downloadChannelArchive
  deriving DecidableEq, Repr

/-- A handler run on a request with a fresh response writer. -/
def Op.run {F : Type} (op : Op) (d : Deps F) (reg : Registry) (r : Request) : State :=
  match op with
  | .listNamespaces => Hub.listNamespaces d reg ResponseWriter.new r
  | .createNamespace => Hub.createNamespace d reg ResponseWriter.new r
  | .readNamespace => Hub.readNamespace d reg ResponseWriter.new r
  | .updateNamespace => Hub.updateNamespace d reg ResponseWriter.new r
  | .deleteNamespace => Hub.deleteNamespace d reg ResponseWriter.new r
  | .listResources => Hub.listResources d reg ResponseWriter.new r
  | .createResource => Hub.createResource d reg ResponseWriter.new r
  | .readResource => Hub.readResource d reg ResponseWriter.new r
  | .updateResource => Hub.updateResource d reg ResponseWriter.new r
  | .deleteResource => Hub.deleteResource d reg ResponseWriter.new r
  | .listVersions => Hub.listVersions d reg ResponseWriter.new r
  | .createVersion => Hub.createVersion d reg ResponseWriter.new r
  | .readVersion => Hub.readVersion d reg ResponseWriter.new r
  | .updateVersion => Hub.updateVersion d reg ResponseWriter.new r
  | .deleteVersion => Hub.deleteVersion d reg ResponseWriter.new r
  | .uploadArchive => Hub.uploadArchive d reg ResponseWriter.new r
  | .downloadArchive => Hub.downloadArchive d reg ResponseWriter.new r
  | .listChannels => Hub.listChannels d reg ResponseWriter.new r
  | .createChannel => Hub.createChannel d reg ResponseWriter.new r
  | .readChannel => Hub.readChannel d reg ResponseWriter.new r
  | .updateChannel => Hub.updateChannel d reg ResponseWriter.new r
  | .deleteChannel => Hub.deleteChannel d reg ResponseWriter.new r
  | .downloadChannelArchive => Hub.downloadChannelArchive d reg ResponseWriter.new r

/-- The error with which the body decoding of a create or update handler
fails on a request, if it fails; `none` for the handlers that decode nothing. -/
def Op.decodeError {F : Type} (op : Op) (d : Deps F) (r : Request) : Option GoError :=
  match op with
  | .createNamespace | .updateNamespace =>
    (decode d d.DecodeNamespaceInfo r d.MediaTypeNamespaceInfo NamespaceInfo.zero []).2.1
  | .createResource | .updateResource =>
    (decode d d.DecodeResourceInfo r d.MediaTypeResourceInfo ResourceInfo.zero []).2.1
  | .createVersion | .updateVersion =>
    (decode d d.DecodeVersionInfo r d.MediaTypeVersionInfo VersionInfo.zero []).2.1
  | .createChannel | .updateChannel =>
    (decode d d.DecodeChannelInfo r d.MediaTypeChannelInfo ChannelInfo.zero []).2.1
  | _ => none

/-! ## Identifiers -/

/-- A lowercase ASCII letter or a digit. -/
def isLowerAlnum (c : Char) : Bool :=
  c.isLower || c.isDigit

/-- The identifier constraint of namespaces, resources and channels: 1 to 63
characters, each a lowercase letter, a digit or a hyphen, the first and the
last not a hyphen. -/
def validIdentifier (s : String) : Bool :=
  decide (1 ≤ s.data.length) && decide (s.data.length ≤ 63)
    && s.data.all (fun c => isLowerAlnum c || c == '-')
    && (s.data.head?.map isLowerAlnum).getD false
    && (s.data.getLast?.map isLowerAlnum).getD false

/-- The characters of a version string: it starts with a digit and consists
of ASCII letters, digits, `.`, `-` and `+`.  Every semantic version
(`1.0.0`, `1.2.3-rc.1+build.5`) is of this shape. -/
def validVersionString (s : String) : Bool :=
  (s.data.head?.map Char.isDigit).getD false
    && s.data.all (fun c => c.isAlphanum || c == '.' || c == '-' || c == '+')

/-! ## handler_test.go: the mock provider -/

/-- The defaults of `mockRegistry`: what each method returns when its function
field is nil. -/
def mockRegistry : Registry where
  ListNamespaces := .ok { Namespaces := [] }
  CreateNamespace := fun info =>
    .ok { Name := info.Name, Description := info.Description, CreatedAt := 0, UpdatedAt := 0 }
  ReadNamespace := fun nspace =>
    .ok { Name := nspace, Description := "", CreatedAt := 0, UpdatedAt := 0 }
  UpdateNamespace := fun nspace info =>
    .ok { Name := nspace, Description := info.Description, CreatedAt := 0, UpdatedAt := 0 }
  DeleteNamespace := fun _ => none
  ListResources := fun _ => .ok { Resources := [] }
  CreateResource := fun nspace info =>
    .ok { Namespace := nspace, Name := info.Name, Typ := "", Description := info.Description,
          CreatedAt := 0, UpdatedAt := 0 }
  ReadResource := fun nspace resource =>
    .ok { Namespace := nspace, Name := resource, Typ := "", Description := "",
          CreatedAt := 0, UpdatedAt := 0 }
  UpdateResource := fun nspace resource info =>
    .ok { Namespace := nspace, Name := resource, Typ := "", Description := info.Description,
          CreatedAt := 0, UpdatedAt := 0 }
  DeleteResource := fun _ _ => none
  ListVersions := fun _ _ => .ok { Versions := [] }
  CreateVersion := fun nspace resource info =>
    .ok { Namespace := nspace, Resource := resource, String := info.String,
          CreatedAt := 0, UpdatedAt := 0 }
  ReadVersion := fun nspace resource version =>
    .ok { Namespace := nspace, Resource := resource, String := version,
          CreatedAt := 0, UpdatedAt := 0 }
  UpdateVersion := fun nspace resource version _ =>
    .ok { Namespace := nspace, Resource := resource, String := version,
          CreatedAt := 0, UpdatedAt := 0 }
  DeleteVersion := fun _ _ _ => none
  UploadArchive := fun nspace resource version _ =>
    .ok { Namespace := nspace, Resource := resource, String := version,
          CreatedAt := 0, UpdatedAt := 0 }
  DownloadArchive := fun _ _ _ => .ok ("mock archive data".data.map (fun c => c.toNat.toUInt8))
  ListChannels := fun _ _ => .ok { Channels := [] }
  CreateChannel := fun nspace resource info =>
    .ok { Namespace := nspace, Resource := resource, Name := info.Name,
          Version := { Namespace := "", Resource := "", String := info.Version,
                       CreatedAt := 0, UpdatedAt := 0 },
          Description := "", CreatedAt := 0, UpdatedAt := 0 }
  ReadChannel := fun nspace resource channel =>
    .ok { Namespace := nspace, Resource := resource, Name := channel,
          Version := { Namespace := "", Resource := "", String := "",
                       CreatedAt := 0, UpdatedAt := 0 },
          Description := "", CreatedAt := 0, UpdatedAt := 0 }
  UpdateChannel := fun nspace resource channel info =>
    .ok { Namespace := nspace, Resource := resource, Name := channel,
          Version := { Namespace := "", Resource := "", String := info.Version,
                       CreatedAt := 0, UpdatedAt := 0 },
          Description := info.Description, CreatedAt := 0, UpdatedAt := 0 }
  DeleteChannel := fun _ _ _ => none

/-! ## A concrete instance of the collaborators

The handlers are evaluated on concrete requests against `sampleDeps`.  Its
media kinds follow the ones the tests send
(`application/vnd.crucible.namespace-info.v0`); its encoding is a stand-in
with two formats, not the JSON and YAML of the protocol package. -/

/-- The two formats of the sample instance. -/
inductive Format where
  | json
  | yaml
  deriving DecidableEq, Repr

/-- The bytes of an ASCII text. -/
def bytesOf (s : String) : Bytes :=
  s.data.map (fun c => c.toNat.toUInt8)

/-- The text of a byte sequence. -/
def textOf (b : Bytes) : String :=
  ⟨b.map (fun x => Char.ofNat x.toNat)⟩

/-- The sample `Parse`: a header that ends in `+json` or `+yaml` has that
format and what precedes it as base kind; any other header is malformed. -/
def sampleParse (header : String) : Except GoError (Format × String) :=
  match header.data.reverse with
  | 'n' :: 'o' :: 's' :: 'j' :: '+' :: rest => .ok (.json, ⟨rest.reverse⟩)
  | 'l' :: 'm' :: 'a' :: 'y' :: '+' :: rest => .ok (.yaml, ⟨rest.reverse⟩)
  | _ => .error (.plain ("unsupported content type: " ++ header))

/-- The sample `Negotiate`: YAML when asked for, JSON otherwise. -/
def sampleNegotiate (accept : String) : Format :=
  if accept == "application/yaml" then .yaml else .json

/-- The sample `Suffix`. -/
def sampleSuffix : Format → String
  | .json => "+json"
  | .yaml => "+yaml"

/-- The text the sample instance writes for an error code. -/
def sampleCodeText : ErrorCode → String
  | .BadRequest => "bad_request"
  | .NotFound => "not_found"
  | .NamespaceExists => "namespace_exists"
  | .ResourceExists => "resource_exists"
  | .VersionExists => "version_exists"
  | .ChannelExists => "channel_exists"
  | .NamespaceNotEmpty => "namespace_not_empty"
  | .ResourceHasPublished => "resource_has_published"
  | .VersionPublished => "version_published"
  | .PreconditionFailed => "precondition_failed"
  | .UnsupportedMediaType => "unsupported_media_type"
  | .NotAcceptable => "not_acceptable"
  | .InternalError => "internal_error"
  | .other raw => raw

/-- The text the sample instance writes for a value. -/
def sampleText : Value → String
  | .namespaceList l => ",".intercalate (l.Namespaces.map (fun x => x.Name))
  | .namespace n => n.Name
  | .resourceList l => ",".intercalate (l.Resources.map (fun x => x.Name))
  | .resource r => r.Name
  | .versionList l => ",".intercalate (l.Versions.map (fun x => x.String))
  | .version v => v.String
  | .channelList l => ",".intercalate (l.Channels.map (fun x => x.Name))
  | .channel c => c.Name
  | .error e => sampleCodeText e.Code ++ ": " ++ e.Message

/-- The sample `Encode`: it writes the text of the value and never fails. -/
def sampleEncode (f : Format) (v : Value) : Bytes × Option GoError :=
  match f with
  | .json => (bytesOf ("json " ++ sampleText v), none)
  | .yaml => (bytesOf ("yaml " ++ sampleText v), none)

/-- The sample instance: a body is the name of the entity, and an empty body
does not decode. -/
def sampleDeps : Deps Format where
  MediaTypeNamespace := "application/vnd.crucible.namespace.v0"
  MediaTypeNamespaceInfo := "application/vnd.crucible.namespace-info.v0"
  MediaTypeNamespaceList := "application/vnd.crucible.namespace-list.v0"
  MediaTypeResource := "application/vnd.crucible.resource.v0"
  MediaTypeResourceInfo := "application/vnd.crucible.resource-info.v0"
  MediaTypeResourceList := "application/vnd.crucible.resource-list.v0"
  MediaTypeVersion := "application/vnd.crucible.version.v0"
  MediaTypeVersionInfo := "application/vnd.crucible.version-info.v0"
  MediaTypeVersionList := "application/vnd.crucible.version-list.v0"
  MediaTypeChannel := "application/vnd.crucible.channel.v0"
  MediaTypeChannelInfo := "application/vnd.crucible.channel-info.v0"
  MediaTypeChannelList := "application/vnd.crucible.channel-list.v0"
  MediaTypeError := "application/vnd.crucible.error.v0"
  MediaTypeArchive := "application/vnd.crucible.archive.v0"
  Parse := sampleParse
  Negotiate := sampleNegotiate
  Suffix := sampleSuffix
  Encode := sampleEncode
  DecodeNamespaceInfo := fun body _ v =>
    if body.isEmpty then (v, some (.plain "EOF")) else ({ v with Name := textOf body }, none)
  DecodeResourceInfo := fun body _ v =>
    if body.isEmpty then (v, some (.plain "EOF")) else ({ v with Name := textOf body }, none)
  DecodeVersionInfo := fun body _ v =>
    if body.isEmpty then (v, some (.plain "EOF")) else ({ v with String := textOf body }, none)
  DecodeChannelInfo := fun body _ v =>
    if body.isEmpty then (v, some (.plain "EOF")) else ({ v with Name := textOf body }, none)
  EqualFoldUnicode := fun s t => s == t
  JoinPathGeneral := fun base elem => "/".intercalate (base :: elem)

/-! ## The requests and providers of the tests -/

/-- The mock provider with `readNamespaceFn` set to fail with `e`, as in
`TestNotFound` and `TestInternalServerError`. -/
def readNamespaceFails (e : GoError) : Registry :=
  { mockRegistry with ReadNamespace := fun _ => .error e }

/-- The request of `TestNotFound`: `GET /namespaces/nonexistent`. -/
def testNotFoundRequest : Request :=
  { Header := [("Accept", "application/json")],
    PathValues := [("namespace", "nonexistent")],
    Body := [] }

/-- The request of `TestInvalidContentType`: `POST /namespaces` with the
Content-Type `application/json`. -/
def testInvalidContentTypeRequest : Request :=
  { Header := [("Content-Type", "application/json"), ("Accept", "application/json")],
    PathValues := [],
    Body := bytesOf "\x7b\"name\":\"test\"\x7d" }

/-- A `POST /namespaces` request whose Content-Type names the kind of a
resource body, with the body `acme`. -/
def wrongKindRequest : Request :=
  { Header := [("Content-Type", "application/vnd.crucible.resource-info.v0+json"),
               ("Accept", "application/json")],
    PathValues := [],
    Body := bytesOf "acme" }

/-- A `POST /namespaces` request whose Content-Type spells the namespace-info
kind in upper case, with the body `acme`. -/
def upperCaseKindRequest : Request :=
  { Header := [("Content-Type", "APPLICATION/VND.CRUCIBLE.NAMESPACE-INFO.V0+json"),
               ("Accept", "application/json")],
    PathValues := [],
    Body := bytesOf "acme" }

/-- The request of `TestCreateNamespace`, with the body `acme` of the sample
encoding: `POST /namespaces` with the namespace-info kind. -/
def testCreateNamespaceRequest : Request :=
  { Header := [("Content-Type", "application/vnd.crucible.namespace-info.v0+json"),
               ("Accept", "application/json")],
    PathValues := [],
    Body := bytesOf "acme" }

/-- The request of `TestCreateResource`, with the body `widget` of the sample
encoding: `POST /namespaces/test/resources`. -/
def testCreateResourceRequest : Request :=
  { Header := [("Content-Type", "application/vnd.crucible.resource-info.v0+json"),
               ("Accept", "application/json")],
    PathValues := [("namespace", "test")],
    Body := bytesOf "widget" }

/-- The request of `TestCreateVersion`, with the body `1.0.0` of the sample
encoding: `POST /namespaces/test/resources/widget/versions`. -/
def testCreateVersionRequest : Request :=
  { Header := [("Content-Type", "application/vnd.crucible.version-info.v0+json"),
               ("Accept", "application/json")],
    PathValues := [("namespace", "test"), ("resource", "widget")],
    Body := bytesOf "1.0.0" }

/-- The request of `TestCreateChannel`, with the body `stable` of the sample
encoding: `POST /namespaces/test/resources/widget/channels`. -/
def testCreateChannelRequest : Request :=
  { Header := [("Content-Type", "application/vnd.crucible.channel-info.v0+json"),
               ("Accept", "application/json")],
    PathValues := [("namespace", "test"), ("resource", "widget")],
    Body := bytesOf "stable" }

/-- The request of `TestDeleteNamespace`: `DELETE /namespaces/test`. -/
def testDeleteNamespaceRequest : Request :=
  { Header := [], PathValues := [("namespace", "test")], Body := [] }

/-! ## The value and the media kind of a successful response

For the list, read and update handlers: what the provider returns to the
handler, taken from the handler's code, and the media kind the response is
to carry, taken from the specification. -/

/-- The value a list, read or update handler receives from the provider on a
request, when the body decodes (update) and the provider call succeeds;
`none` when either fails and for the other handlers. -/
def Op.providerValue {F : Type} (op : Op) (d : Deps F) (reg : Registry) (r : Request) :
    Option Value :=
  let nspace := r.PathValue "namespace"
  let resource := r.PathValue "resource"
  let version := r.PathValue "version"
  let channel := r.PathValue "channel"
  match op with
  | .listNamespaces => (reg.ListNamespaces).toOption.map .namespaceList
  | .readNamespace => (reg.ReadNamespace nspace).toOption.map .namespace
  | .updateNamespace =>
    match decode d d.DecodeNamespaceInfo r d.MediaTypeNamespaceInfo NamespaceInfo.zero [] with
    | (_, some _, _) => none
    | (info, none, _) => (reg.UpdateNamespace nspace info).toOption.map .namespace
  | .listResources => (reg.ListResources nspace).toOption.map .resourceList
  | .readResource => (reg.ReadResource nspace resource).toOption.map .resource
  | .updateResource =>
    match decode d d.DecodeResourceInfo r d.MediaTypeResourceInfo ResourceInfo.zero [] with
    | (_, some _, _) => none
    | (info, none, _) => (reg.UpdateResource nspace resource info).toOption.map .resource
  | .listVersions => (reg.ListVersions nspace resource).toOption.map .versionList
  | .readVersion => (reg.ReadVersion nspace resource version).toOption.map .version
  | .updateVersion =>
    match decode d d.DecodeVersionInfo r d.MediaTypeVersionInfo VersionInfo.zero [] with
    | (_, some _, _) => none
    | (info, none, _) => (reg.UpdateVersion nspace resource version info).toOption.map .version
  | .listChannels => (reg.ListChannels nspace resource).toOption.map .channelList
  | .readChannel => (reg.ReadChannel nspace resource channel).toOption.map .channel
  | .updateChannel =>
    match decode d d.DecodeChannelInfo r d.MediaTypeChannelInfo ChannelInfo.zero [] with
    | (_, some _, _) => none
    | (info, none, _) => (reg.UpdateChannel nspace resource channel info).toOption.map .channel
  | _ => none

/-- The response media kind the specification gives a list, read or update
operation: the list kind for a list, the kind of the full entity for a read
or an update; the empty string for the other operations. -/
def Op.responseKindSpec {F : Type} (op : Op) (d : Deps F) : MediaType :=
  match op with
  | .listNamespaces => d.MediaTypeNamespaceList
  | .listResources => d.MediaTypeResourceList
  | .listVersions => d.MediaTypeVersionList
  | .listChannels => d.MediaTypeChannelList
  | .readNamespace | .updateNamespace => d.MediaTypeNamespace
  | .readResource | .updateResource => d.MediaTypeResource
  | .readVersion | .updateVersion => d.MediaTypeVersion
  | .readChannel | .updateChannel => d.MediaTypeChannel
  | _ => ""

/-- The info kind of the entity an operation is about: the kind of the
request body of its create and update operations. -/
def Op.infoKind {F : Type} (op : Op) (d : Deps F) : MediaType :=
  match op with
  | .listNamespaces | .createNamespace | .readNamespace | .updateNamespace
  | .deleteNamespace => d.MediaTypeNamespaceInfo
  | .listResources | .createResource | .readResource | .updateResource
  | .deleteResource => d.MediaTypeResourceInfo
  | .listVersions | .createVersion | .readVersion | .updateVersion | .deleteVersion
  | .uploadArchive | .downloadArchive => d.MediaTypeVersionInfo
  | .listChannels | .createChannel | .readChannel | .updateChannel | .deleteChannel
  | .downloadChannelArchive => d.MediaTypeChannelInfo

/-- The provider of `TestUpdateResource`: the mock with `updateResourceFn` set. -/
def testUpdateResourceRegistry : Registry :=
  { mockRegistry with
    UpdateResource := fun nspace resource info =>
      .ok { Namespace := nspace, Name := resource, Typ := info.Typ,
            Description := info.Description, CreatedAt := 1234567890, UpdatedAt := 0 } }

/-- The request of `TestUpdateResource`, with the body `widget` of the sample
encoding: `PUT /namespaces/test/resources/widget`. -/
def testUpdateResourceRequest : Request :=
  { Header := [("Content-Type", "application/vnd.crucible.resource-info.v0+json"),
               ("Accept", "application/json")],
    PathValues := [("namespace", "test"), ("resource", "widget")],
    Body := bytesOf "widget" }

/-- The provider of `TestDownloadArchive`: the mock with `downloadArchiveFn`
set to return the stream `archive data`. -/
def testDownloadArchiveRegistry : Registry :=
  { mockRegistry with DownloadArchive := fun _ _ _ => .ok (bytesOf "archive data") }

/-- The request of `TestDownloadArchive`:
`GET /namespaces/test/resources/widget/versions/1.0.0/archive`. -/
def testDownloadArchiveRequest : Request :=
  { Header := [],
    PathValues := [("namespace", "test"), ("resource", "widget"), ("version", "1.0.0")],
    Body := [] }

/-- The provider of `TestDownloadChannelArchive`: every channel refers to the
version `1.0.0`, and every download returns the stream `channel archive data`. -/
def testDownloadChannelArchiveRegistry : Registry :=
  { mockRegistry with
    ReadChannel := fun nspace resource channel =>
      .ok { Namespace := nspace, Resource := resource, Name := channel,
            Version := { Namespace := "", Resource := "", String := "1.0.0",
                         CreatedAt := 0, UpdatedAt := 0 },
            Description := "", CreatedAt := 0, UpdatedAt := 0 }
    DownloadArchive := fun _ _ _ => .ok (bytesOf "channel archive data") }

/-- The request of `TestDownloadChannelArchive`:
`GET /namespaces/test/resources/widget/channels/stable/archive`. -/
def testDownloadChannelArchiveRequest : Request :=
  { Header := [],
    PathValues := [("namespace", "test"), ("resource", "widget"), ("channel", "stable")],
    Body := [] }

/-- The mock provider with `readChannelFn` set to fail with `e`. -/
def readChannelFails (e : GoError) : Registry :=
  { mockRegistry with ReadChannel := fun _ _ _ => .error e }

/-- The request of an ordinary archive download of the version `version` of
the resource `resource` in the namespace `nspace`, with the headers and the
body of `r`. -/
def versionArchiveRequest (r : Request) (nspace resource version : String) : Request :=
  { r with PathValues := [("namespace", nspace), ("resource", resource), ("version", version)] }

/-- The calls of a handler that went to the provider, in order. -/
def State.providerCalls (s : State) : List Invocation :=
  s.log.filter (fun inv => inv.call.isProvider)

/-- The provider of `TestUploadArchive`: the mock with `uploadArchiveFn` set. -/
def testUploadArchiveRegistry : Registry :=
  { mockRegistry with
    UploadArchive := fun nspace resource version _ =>
      .ok { Namespace := nspace, Resource := resource, String := version,
            CreatedAt := 0, UpdatedAt := 0 } }

/-- The request of `TestUploadArchive`:
`PUT /namespaces/test/resources/widget/versions/1.0.0/archive` with the body
`archive data`. -/
def testUploadArchiveRequest : Request :=
  { Header := [("Accept", "application/json")],
    PathValues := [("namespace", "test"), ("resource", "widget"), ("version", "1.0.0")],
    Body := bytesOf "archive data" }

/-- A request with the header `Archive-Digest` set to `digest`. -/
def withArchiveDigest (r : Request) (digest : String) : Request :=
  { r with Header := ("Archive-Digest", digest) :: r.Header }

/-! ## handler.go: the routing table -/

/-- The function `NewHandler`: the patterns it registers on the mux with
`HandleFunc`, in order, each with the handler method it binds. -/
def NewHandler : List (String × Op) :=
  [ ("GET /namespaces", .listNamespaces),
    ("POST /namespaces", .createNamespace),
    ("GET /namespaces/{namespace}", .readNamespace),
    ("PUT /namespaces/{namespace}", .updateNamespace),
    ("DELETE /namespaces/{namespace}", .deleteNamespace),
    ("GET /namespaces/{namespace}/resources", .listResources),
    ("POST /namespaces/{namespace}/resources", .createResource),
    ("GET /namespaces/{namespace}/resources/{resource}", .readResource),
    ("PUT /namespaces/{namespace}/resources/{resource}", .updateResource),
    ("DELETE /namespaces/{namespace}/resources/{resource}", .deleteResource),
    ("GET /namespaces/{namespace}/resources/{resource}/versions", .listVersions),
    ("POST /namespaces/{namespace}/resources/{resource}/versions", .createVersion),
    ("GET /namespaces/{namespace}/resources/{resource}/versions/{version}", .readVersion),
    ("PUT /namespaces/{namespace}/resources/{resource}/versions/{version}", .updateVersion),
    ("DELETE /namespaces/{namespace}/resources/{resource}/versions/{version}", .deleteVersion),
    ("PUT /namespaces/{namespace}/resources/{resource}/versions/{version}/archive",
      .uploadArchive),
    ("GET /namespaces/{namespace}/resources/{resource}/versions/{version}/archive",
      .downloadArchive),
    ("GET /namespaces/{namespace}/resources/{resource}/channels", .listChannels),
    ("POST /namespaces/{namespace}/resources/{resource}/channels", .createChannel),
    ("GET /namespaces/{namespace}/resources/{resource}/channels/{channel}", .readChannel),
    ("PUT /namespaces/{namespace}/resources/{resource}/channels/{channel}", .updateChannel),
    ("DELETE /namespaces/{namespace}/resources/{resource}/channels/{channel}", .deleteChannel),
    ("GET /namespaces/{namespace}/resources/{resource}/channels/{channel}/archive",
      .downloadChannelArchive) ]

/-- The routing table of the specification, row by row: method, path pattern
and operation.  A row with several methods stands for one entry per method,
in the order written, and `...` for `/namespaces/{ns}/resources/{r}`. -/
def specRoutingTable : List (String × String × Op) :=
  [ ("GET", "/namespaces", .listNamespaces),
    ("POST", "/namespaces", .createNamespace),
    ("GET", "/namespaces/{ns}", .readNamespace),
    ("PUT", "/namespaces/{ns}", .updateNamespace),
    ("DELETE", "/namespaces/{ns}", .deleteNamespace),
    ("GET", "/namespaces/{ns}/resources", .listResources),
    ("POST", "/namespaces/{ns}/resources", .createResource),
    ("GET", "/namespaces/{ns}/resources/{r}", .readResource),
    ("PUT", "/namespaces/{ns}/resources/{r}", .updateResource),
    ("DELETE", "/namespaces/{ns}/resources/{r}", .deleteResource),
    ("GET", "/namespaces/{ns}/resources/{r}/versions", .listVersions),
    ("POST", "/namespaces/{ns}/resources/{r}/versions", .createVersion),
    ("GET", "/namespaces/{ns}/resources/{r}/versions/{v}", .readVersion),
    ("PUT", "/namespaces/{ns}/resources/{r}/versions/{v}", .updateVersion),
    ("DELETE", "/namespaces/{ns}/resources/{r}/versions/{v}", .deleteVersion),
    ("PUT", "/namespaces/{ns}/resources/{r}/versions/{v}/archive", .uploadArchive),
    ("GET", "/namespaces/{ns}/resources/{r}/versions/{v}/archive", .downloadArchive),
    ("GET", "/namespaces/{ns}/resources/{r}/channels", .listChannels),
    ("POST", "/namespaces/{ns}/resources/{r}/channels", .createChannel),
    ("GET", "/namespaces/{ns}/resources/{r}/channels/{c}", .readChannel),
    ("PUT", "/namespaces/{ns}/resources/{r}/channels/{c}", .updateChannel),
    ("DELETE", "/namespaces/{ns}/resources/{r}/channels/{c}", .deleteChannel),
    ("GET", "/namespaces/{ns}/resources/{r}/channels/{c}/archive", .downloadChannelArchive) ]

/-- The method of a mux pattern: what precedes the first space. -/
def patternMethod (pattern : String) : String :=
  ⟨pattern.data.takeWhile (fun c => c != ' ')⟩

/-- The path of a mux pattern: what follows the first space. -/
def patternPath (pattern : String) : String :=
  ⟨(pattern.data.dropWhile (fun c => c != ' ')).drop 1⟩

/-- The segments of a path, split at `/`, as lists of characters. -/
def splitSegments : List Char → List (List Char)
  | [] => [[]]
  | c :: rest =>
    match splitSegments rest with
    | [] => [[]]
    | seg :: segs => if c == '/' then [] :: seg :: segs else (c :: seg) :: segs

/-- The shape of a path pattern: its segments, with every wildcard segment
`{name}` replaced by `{}`, so that two patterns that differ only in the names
of their wildcards have the same shape. -/
def pathShape (path : String) : List String :=
  (splitSegments path.data).map (fun seg =>
    match seg with
    | '{' :: _ => "{}"
    | _ => ⟨seg⟩)

/-! ## Failed requests -/

/-- Whether a call in the log of a handler returned an error. -/
def State.failed (s : State) : Bool :=
  s.log.any (fun inv => inv.err.isSome)

/-- Whether a handler fails on a request: the decoding of the body fails, or
a call it makes returns an error. -/
def Op.fails {F : Type} (op : Op) (d : Deps F) (reg : Registry) (r : Request) : Bool :=
  (op.decodeError d r).isSome || (op.run d reg r).failed

/-- The mock provider with `downloadArchiveFn` set to fail with `e`, as in
`TestDownloadArchiveNotFound`. -/
def downloadArchiveFails (e : GoError) : Registry :=
  { mockRegistry with DownloadArchive := fun _ _ _ => .error e }

/-! ## The call a handler is to make -/

/-- The first call each handler is to make to the provider when the body
decodes: the method of the operation, with the path parameters of the request
in the order namespace, resource, version or channel and, for a create or an
update, the value decoded from the body; for an upload, the body itself. -/
def Op.firstCallSpec {F : Type} (op : Op) (d : Deps F) (r : Request) : Call :=
  let nspace := r.PathValue "namespace"
  let resource := r.PathValue "resource"
  let version := r.PathValue "version"
  let channel := r.PathValue "channel"
  let namespaceInfo :=
    (decode d d.DecodeNamespaceInfo r d.MediaTypeNamespaceInfo NamespaceInfo.zero []).1
  let resourceInfo :=
    (decode d d.DecodeResourceInfo r d.MediaTypeResourceInfo ResourceInfo.zero []).1
  let versionInfo :=
    (decode d d.DecodeVersionInfo r d.MediaTypeVersionInfo VersionInfo.zero []).1
  let channelInfo :=
    (decode d d.DecodeChannelInfo r d.MediaTypeChannelInfo ChannelInfo.zero []).1
  match op with
  | .listNamespaces => .ListNamespaces
  | .createNamespace => .CreateNamespace namespaceInfo
  | .readNamespace => .ReadNamespace nspace
  | .updateNamespace => .UpdateNamespace nspace namespaceInfo
  | .deleteNamespace => .DeleteNamespace nspace
  | .listResources => .ListResources nspace
  | .createResource => .CreateResource nspace resourceInfo
  | .readResource => .ReadResource nspace resource
  | .updateResource => .UpdateResource nspace resource resourceInfo
  | .deleteResource => .DeleteResource nspace resource
  | .listVersions => .ListVersions nspace resource
  | .createVersion => .CreateVersion nspace resource versionInfo
  | .readVersion => .ReadVersion nspace resource version
  | .updateVersion => .UpdateVersion nspace resource version versionInfo
  | .deleteVersion => .DeleteVersion nspace resource version
  | .uploadArchive => .UploadArchive nspace resource version r.Body
  | .downloadArchive => .DownloadArchive nspace resource version
  | .listChannels => .ListChannels nspace resource
  | .createChannel => .CreateChannel nspace resource channelInfo
  | .readChannel => .ReadChannel nspace resource channel
  | .updateChannel => .UpdateChannel nspace resource channel channelInfo
  | .deleteChannel => .DeleteChannel nspace resource channel
  | .downloadChannelArchive => .ReadChannel nspace resource channel

/-- A provider that stores every new entity under an identifier of its own:
the mock with the create functions set to return the requested name followed
by `-2`, and the version `2.0.0` whatever version is requested. -/
def renamingRegistry : Registry :=
  { mockRegistry with
    CreateNamespace := fun info =>
      .ok { Name := info.Name ++ "-2", Description := info.Description,
            CreatedAt := 0, UpdatedAt := 0 }
    CreateResource := fun nspace info =>
      .ok { Namespace := nspace, Name := info.Name ++ "-2", Typ := info.Typ,
            Description := info.Description, CreatedAt := 0, UpdatedAt := 0 }
    CreateVersion := fun nspace resource _ =>
      .ok { Namespace := nspace, Resource := resource, String := "2.0.0",
            CreatedAt := 0, UpdatedAt := 0 } }

/-! ## The negotiation of the format, from the specification

The function `codec.Negotiate` and the method `Suffix` belong to the protocol
package.  What follows models them from the description of `negotiate` in
the specification, for the two formats the tests ask for. -/

/-- The pieces of a list of characters between the occurrences of `sep`. -/
def splitChars (sep : Char) : List Char → List (List Char)
  | [] => [[]]
  | c :: rest =>
    match splitChars sep rest with
    | [] => [[]]
    | seg :: segs => if c == sep then [] :: seg :: segs else (c :: seg) :: segs

/-- A list of characters without its leading and trailing spaces. -/
def trimSpaces (l : List Char) : List Char :=
  ((l.dropWhile (fun c => c == ' ')).reverse.dropWhile (fun c => c == ' ')).reverse

/-- The value of a decimal digit, 0 for any other character. -/
def digitValue (c : Char) : Nat :=
  if c.isDigit then c.toNat - 48 else 0

/-- Modelled from the spec: the quality weight of an entry of the preference
list, missing from `src/` with the rest of `codec.Negotiate`.  It is read
from the parameter `q=` in thousandths, and is 1000 when there is none. -/
def specQuality (params : List (List Char)) : Nat :=
  match params.map trimSpaces |>.find? (fun p =>
      match p with
      | 'q' :: '=' :: _ => true
      | _ => false) with
  | none => 1000
  | some ('q' :: '=' :: '1' :: _) => 1000
  | some ('q' :: '=' :: '0' :: '.' :: ds) =>
    100 * digitValue (ds.getD 0 '0') + 10 * digitValue (ds.getD 1 '0')
      + digitValue (ds.getD 2 '0')
  | some _ => 0

/-- Modelled from the spec: the client preference list of an Accept header,
missing from `src/` with the rest of `codec.Negotiate`: the entries between
commas, each a media range (kind/subtype, possibly with wildcards) with its
quality weight. -/
def specParseAccept (accept : String) : List (String × Nat) :=
  (splitChars ',' accept.data).filterMap (fun entry =>
    match splitChars ';' entry with
    | [] => none
    | range :: params =>
      if (trimSpaces range).isEmpty then none
      else some (⟨trimSpaces range⟩, specQuality params))

/-- Modelled from the spec: the supported format a media range names, missing
from `src/` with the rest of `codec.Negotiate`. -/
def specFormatOfRange (range : String) : Option Format :=
  if range == "application/json" then some .json
  else if range == "application/yaml" then some .yaml
  else none

/-- Modelled from the spec: the selection of the supported format of highest
priority, missing from `src/` with the rest of `codec.Negotiate`: among the
entries that name a supported format with a weight above zero, the one of
highest weight, the earlier one among equals. -/
def specBest : List (String × Nat) → Option (Format × Nat)
  | [] => none
  | (range, q) :: rest =>
    match specFormatOfRange range, specBest rest with
    | none, best => best
    | some f, none => if q = 0 then none else some (f, q)
    | some f, some (g, p) => if p ≤ q ∧ q ≠ 0 then some (f, q) else some (g, p)

/-- Modelled from the spec: the function `codec.Negotiate`, missing from
`src/`.  It parses the client preference list and selects the supported
format of highest priority; the result is the baseline format, JSON, when
the header is absent or empty or matches only through a wildcard, and the
negotiation fails (`none`) when the list names only unsupported formats. -/
def specNegotiate (accept : String) : Option Format :=
  let entries := specParseAccept accept
  if entries.isEmpty then some .json
  else
    match specBest entries with
    | some (f, _) => some f
    | none =>
      if entries.any (fun e => (e.1 == "*/*" || e.1 == "application/*") && e.2 != 0) then
        some .json
      else none

/-- Modelled from the spec: the method `Suffix` of a format, missing from
`src/`: `+` and the name of the format, so that the Content-Type is the media
kind, `+` and the format. -/
def specSuffix : Format → String
  | .json => "+json"
  | .yaml => "+yaml"

/-- The sample instance with the negotiation of the specification.  The
function `codec.Negotiate` returns a format and no error; `onFailure` is the
format it returns where the negotiation of the specification fails. -/
def specDeps (onFailure : Format) : Deps Format :=
  { sampleDeps with
    Negotiate := fun accept => (specNegotiate accept).getD onFailure
    Suffix := specSuffix }

/-- A request with the Accept header set to `accept`. -/
def withAccept (r : Request) (accept : String) : Request :=
  { r with Header := ("Accept", accept) :: r.Header }

/-- The request `GET /namespaces` of `TestContentNegotiationJSON`, without
any header. -/
def testListNamespacesRequest : Request :=
  { Header := [], PathValues := [], Body := [] }

/-! ## What the provider answers to a call -/

/-- The result of a successful call: the value the method returns, the
archive stream, or nothing (a delete). -/
inductive Reply where
  | value (v : Value)
  | archive (b : Bytes)
  | nothing
  deriving DecidableEq, Repr

/-- The provider performing a logged call: the method the call names,
applied to the arguments the call carries, in their order.  `Decode` is no
call to the provider. -/
def Registry.perform (reg : Registry) : Call → Except GoError Reply
  | .Decode _ => .ok .nothing
  | .ListNamespaces => reg.ListNamespaces.map (fun l => .value (.namespaceList l))
  | .CreateNamespace info => (reg.CreateNamespace info).map (fun x => .value (.namespace x))
  | .ReadNamespace ns => (reg.ReadNamespace ns).map (fun x => .value (.namespace x))
  | .UpdateNamespace ns info =>
    (reg.UpdateNamespace ns info).map (fun x => .value (.namespace x))
  | .DeleteNamespace ns =>
    match reg.DeleteNamespace ns with
    | some e => .error e
    | none => .ok .nothing
  | .ListResources ns => (reg.ListResources ns).map (fun l => .value (.resourceList l))
  | .CreateResource ns info =>
    (reg.CreateResource ns info).map (fun x => .value (.resource x))
  | .ReadResource ns res => (reg.ReadResource ns res).map (fun x => .value (.resource x))
  | .UpdateResource ns res info =>
    (reg.UpdateResource ns res info).map (fun x => .value (.resource x))
  | .DeleteResource ns res =>
    match reg.DeleteResource ns res with
    | some e => .error e
    | none => .ok .nothing
  | .ListVersions ns res => (reg.ListVersions ns res).map (fun l => .value (.versionList l))
  | .CreateVersion ns res info =>
    (reg.CreateVersion ns res info).map (fun x => .value (.version x))
  | .ReadVersion ns res ver => (reg.ReadVersion ns res ver).map (fun x => .value (.version x))
  | .UpdateVersion ns res ver info =>
    (reg.UpdateVersion ns res ver info).map (fun x => .value (.version x))
  | .DeleteVersion ns res ver =>
    match reg.DeleteVersion ns res ver with
    | some e => .error e
    | none => .ok .nothing
  | .UploadArchive ns res ver archive =>
    (reg.UploadArchive ns res ver archive).map (fun x => .value (.version x))
  | .DownloadArchive ns res ver => (reg.DownloadArchive ns res ver).map (fun b => .archive b)
  | .ListChannels ns res => (reg.ListChannels ns res).map (fun l => .value (.channelList l))
  | .CreateChannel ns res info =>
    (reg.CreateChannel ns res info).map (fun x => .value (.channel x))
  | .ReadChannel ns res ch => (reg.ReadChannel ns res ch).map (fun x => .value (.channel x))
  | .UpdateChannel ns res ch info =>
    (reg.UpdateChannel ns res ch info).map (fun x => .value (.channel x))
  | .DeleteChannel ns res ch =>
    match reg.DeleteChannel ns res ch with
    | some e => .error e
    | none => .ok .nothing

/-- A provider that knows one version only: the mock with `readVersionFn` set
to return the version for `(nspace, resource, version)` and to fail with
`NotFound` for any other arguments, the same three in another order
included. -/
def readVersionOnly (nspace resource version : String) : Registry :=
  { mockRegistry with
    ReadVersion := fun a b c =>
      if a = nspace ∧ b = resource ∧ c = version then
        .ok { Namespace := a, Resource := b, String := c, CreatedAt := 0, UpdatedAt := 0 }
      else .error (.registry { Code := .NotFound, Message := "version not found" } "nf") }

/-- The provider of `TestReadVersion`: the mock with `readVersionFn` set to
return a version made of the three arguments it is called with. -/
def testReadVersionRegistry : Registry :=
  { mockRegistry with
    ReadVersion := fun nspace resource version =>
      .ok { Namespace := nspace, Resource := resource, String := version,
            CreatedAt := 1234567890, UpdatedAt := 0 } }

/-- The request of `TestReadVersion`:
`GET /namespaces/test/resources/widget/versions/1.0.0`. -/
def testReadVersionRequest : Request :=
  { Header := [("Accept", "application/json")],
    PathValues := [("namespace", "test"), ("resource", "widget"), ("version", "1.0.0")],
    Body := [] }

/-! # Theorems -/

/-! ## Lemmas on the response writer and the helpers -/

theorem encode_fresh {F : Type} (d : Deps F) (w : ResponseWriter) (r : Request)
    (mediaType : MediaType) (status : Nat) (v : Value) (hw : w.wroteHeader = false) :
    (encode d w r mediaType status v).1 =
      { header := ("Content-Type", mediaType ++ d.Suffix (d.Negotiate (r.HeaderGet "Accept")))
          :: w.header.filter (fun kv => !(kv.1 == "Content-Type")),
        wroteHeader := true,
        status := status,
        body := w.body ++ (d.Encode (d.Negotiate (r.HeaderGet "Accept")) v).1 } := by
  simp [encode, ResponseWriter.HeaderSet, ResponseWriter.WriteHeader, ResponseWriter.Write, hw]

theorem fail_new {F : Type} (d : Deps F) (r : Request) (code : ErrorCode) (message : String)
    (status : Nat) :
    fail d ResponseWriter.new r code message status =
      { header := [("Content-Type", d.MediaTypeError ++ d.Suffix (d.Negotiate (r.HeaderGet "Accept")))],
        wroteHeader := true,
        status := status,
        body := (d.Encode (d.Negotiate (r.HeaderGet "Accept"))
          (.error { Code := code, Message := message })).1 } := by
  simp [fail, encode_fresh, ResponseWriter.new]

theorem lookup_head (k v : String) (rest : List (String × String)) :
    lookup ((k, v) :: rest) k = v := by
  simp [lookup, List.find?]

/-- C1: for every error code `c`, `errorCodeToHTTPStatus c` is 400 for
`BadRequest`, 404 for `NotFound`, 409 for the seven conflict codes, 412 for
`PreconditionFailed`, 415 for `UnsupportedMediaType`, 406 for `NotAcceptable`
and 500 for every other code, `InternalError` and the codes outside the
enumeration included. -/
theorem errorCodeToHTTPStatus_table (c : ErrorCode) :
    errorCodeToHTTPStatus c =
      (if c = .BadRequest then 400
       else if c = .NotFound then 404
       else if c ∈ [ErrorCode.NamespaceExists, .ResourceExists, .VersionExists, .ChannelExists,
                    .NamespaceNotEmpty, .ResourceHasPublished, .VersionPublished] then 409
       else if c = .PreconditionFailed then 412
       else if c = .UnsupportedMediaType then 415
       else if c = .NotAcceptable then 406
       else 500)
    ∧ errorCodeToHTTPStatus .InternalError = 500
    ∧ ∀ raw : String, errorCodeToHTTPStatus (.other raw) = 500 := by
  refine ⟨?_, rfl, fun _ => rfl⟩
  cases c <;> simp [errorCodeToHTTPStatus]

theorem decode_of_parse_error {F α : Type} (d : Deps F)
    (dec : Bytes → F → α → α × Option GoError) (r : Request) (expected : MediaType) (v : α)
    (log : List Invocation) (perr : GoError)
    (hparse : d.Parse (r.HeaderGet "Content-Type") = .error perr) :
    decode d dec r expected v log =
      (v, some (.wrapError ("invalid Content-Type: " ++ perr.Error) perr), log) := by
  simp [decode, hparse]

theorem decode_of_parse_ok {F α : Type} (d : Deps F)
    (dec : Bytes → F → α → α × Option GoError) (r : Request) (expected : MediaType) (v : α)
    (log : List Invocation) (ct : F) (k : String)
    (hparse : d.Parse (r.HeaderGet "Content-Type") = .ok (ct, k)) :
    decode d dec r expected v log =
      if EqualFold d k expected then
        ((dec r.Body ct v).1, (dec r.Body ct v).2,
          log ++ [⟨.Decode r.Body, (dec r.Body ct v).2⟩])
      else
        (v, some (.plain ("expected Content-Type " ++ expected ++ "+\x7bformat\x7d, got "
          ++ r.HeaderGet "Content-Type")), log) := by
  simp only [decode, hparse]
  cases EqualFold d k expected <;> simp

theorem decode_log_nil {F α : Type} (d : Deps F) (dec : Bytes → F → α → α × Option GoError)
    (r : Request) (expected : MediaType) (v : α) :
    ∀ inv ∈ (decode d dec r expected v []).2.2, inv.call.isProvider = false := by
  intro inv hmem
  cases hp : d.Parse (r.HeaderGet "Content-Type") with
  | error perr =>
    rw [decode_of_parse_error d dec r expected v [] perr hp] at hmem
    simp at hmem
  | ok p =>
    obtain ⟨ct, k⟩ := p
    rw [decode_of_parse_ok d dec r expected v [] ct k hp] at hmem
    cases hf : EqualFold d k expected
    · simp [hf] at hmem
    · simp [hf] at hmem
      subst hmem
      rfl

theorem decode_log_of_eq {F α : Type} (d : Deps F) (dec : Bytes → F → α → α × Option GoError)
    (r : Request) (expected : MediaType) (v v1 : α) (oerr : Option GoError)
    (lg : List Invocation) (hd : decode d dec r expected v [] = (v1, oerr, lg)) :
    ∀ inv ∈ lg, inv.call.isProvider = false := by
  have h := decode_log_nil d dec r expected v
  rw [hd] at h
  exact h

theorem run_provider_failure {F : Type} (d : Deps F) (reg : Registry) (r : Request) (op : Op)
    (inv : Invocation) (e : GoError)
    (hmem : inv ∈ (op.run d reg r).log) (hprov : inv.call.isProvider = true)
    (herr : inv.err = some e) :
    (op.run d reg r).w = failWithError d ResponseWriter.new r e := by
  cases op
  case createNamespace | updateNamespace | createResource | updateResource | createVersion
      | updateVersion | createChannel | updateChannel =>
    simp only [Op.run, createNamespace, updateNamespace, createResource, updateResource,
      createVersion, updateVersion, createChannel, updateChannel] at hmem ⊢
    split at hmem
    · rename_i hd
      have hl := decode_log_of_eq _ _ _ _ _ _ _ _ hd inv hmem
      simp [hl] at hprov
    · rename_i hd
      have hl := decode_log_of_eq _ _ _ _ _ _ _ _ hd
      split at hmem
      · simp at hmem
        rcases hmem with h | h
        · simp [hl inv h] at hprov
        · subst h
          simp at herr
          subst herr
          simp_all
      · simp at hmem
        rcases hmem with h | h
        · simp [hl inv h] at hprov
        · subst h
          simp at herr
  case downloadChannelArchive =>
    simp only [Op.run, downloadChannelArchive] at hmem ⊢
    split at hmem
    · simp at hmem
      subst hmem
      simp at herr
      subst herr
      simp_all
    · split at hmem
      · simp at hmem
        rcases hmem with h | h
        · subst h
          simp at herr
        · subst h
          simp at herr
          subst herr
          simp_all
      · simp at hmem
        rcases hmem with h | h <;> subst h <;> simp at herr
  case deleteNamespace | deleteResource | deleteVersion | deleteChannel =>
    simp only [Op.run, deleteNamespace, deleteResource, deleteVersion, deleteChannel] at hmem ⊢
    split at hmem
    · simp at hmem
      subst hmem
      simp at herr
      subst herr
      simp_all
    · simp at hmem
      subst hmem
      simp at herr
  case listNamespaces | readNamespace | listResources | readResource | listVersions | readVersion
      | uploadArchive | downloadArchive | listChannels | readChannel =>
    simp only [Op.run, listNamespaces, readNamespace, listResources, readResource, listVersions,
      readVersion, uploadArchive, downloadArchive, listChannels, readChannel] at hmem ⊢
    split at hmem
    · simp at hmem
      subst hmem
      simp at herr
      subst herr
      simp_all
    · simp at hmem
      subst hmem
      simp at herr

/-- C2: when a provider operation invoked by any handler fails with a domain
error of code `c` and message `m`, the response is the one `failWithError`
writes for it: its status is `errorCodeToHTTPStatus c` (404 for `NotFound`),
its Content-Type is the error media kind with the negotiated suffix, and its
body is the encoding of the error value with exactly code `c` and message `m`;
the same holds of `failWithError` on every domain error. -/
theorem failWithError_domain_error {F : Type} (d : Deps F) (reg : Registry) (r : Request)
    (op : Op) (inv : Invocation) (c : ErrorCode) (m text : String)
    (hmem : inv ∈ (op.run d reg r).log) (hprov : inv.call.isProvider = true)
    (herr : inv.err = some (.registry { Code := c, Message := m } text)) :
    (op.run d reg r).w.status = errorCodeToHTTPStatus c
    ∧ (op.run d reg r).w.body
        = (d.Encode (d.Negotiate (r.HeaderGet "Accept")) (.error { Code := c, Message := m })).1
    ∧ (op.run d reg r).w.HeaderGet "Content-Type"
        = d.MediaTypeError ++ d.Suffix (d.Negotiate (r.HeaderGet "Accept"))
    ∧ errorCodeToHTTPStatus .NotFound = 404
    ∧ ∀ (c1 : ErrorCode) (m1 t1 : String),
        (failWithError d ResponseWriter.new r (.registry { Code := c1, Message := m1 } t1)).status
          = errorCodeToHTTPStatus c1
        ∧ (failWithError d ResponseWriter.new r (.registry { Code := c1, Message := m1 } t1)).body
          = (d.Encode (d.Negotiate (r.HeaderGet "Accept"))
              (.error { Code := c1, Message := m1 })).1 := by
  have hw := run_provider_failure d reg r op inv _ hmem hprov herr
  rw [hw]
  simp [failWithError, GoError.asRegistry, fail_new, ResponseWriter.HeaderGet, lookup_head,
    errorCodeToHTTPStatus]

/-- C2, at the request of `TestNotFound`: the response is 404. -/
theorem failWithError_domain_error_witness :
    (⟨.ReadNamespace "nonexistent",
        some (.registry { Code := .NotFound, Message := "namespace not found" } "not found")⟩
      : Invocation)
      ∈ (Op.readNamespace.run sampleDeps
          (readNamespaceFails
            (.registry { Code := .NotFound, Message := "namespace not found" } "not found"))
          testNotFoundRequest).log
    ∧ (Op.readNamespace.run sampleDeps
          (readNamespaceFails
            (.registry { Code := .NotFound, Message := "namespace not found" } "not found"))
          testNotFoundRequest).w.status = 404 :=
  ⟨by decide,
   (failWithError_domain_error sampleDeps
      (readNamespaceFails
        (.registry { Code := .NotFound, Message := "namespace not found" } "not found"))
      testNotFoundRequest .readNamespace
      ⟨.ReadNamespace "nonexistent",
        some (.registry { Code := .NotFound, Message := "namespace not found" } "not found")⟩
      .NotFound "namespace not found" "not found" (by decide) rfl rfl).1⟩

/-- C3: when a provider operation invoked by any handler fails with an error
that is not a `*registry.Error`, the response has status 500 and its body is
the encoding of the error value with code `InternalError` and, as message, the
text of the error unchanged. -/
theorem failWithError_untyped_error {F : Type} (d : Deps F) (reg : Registry) (r : Request)
    (op : Op) (inv : Invocation) (e : GoError)
    (hmem : inv ∈ (op.run d reg r).log) (hprov : inv.call.isProvider = true)
    (herr : inv.err = some e) (hnot : e.asRegistry = none) :
    (op.run d reg r).w = failWithError d ResponseWriter.new r e
    ∧ (failWithError d ResponseWriter.new r e).status = 500
    ∧ (failWithError d ResponseWriter.new r e).body
        = (d.Encode (d.Negotiate (r.HeaderGet "Accept"))
            (.error { Code := .InternalError, Message := e.Error })).1
    ∧ (failWithError d ResponseWriter.new r e).HeaderGet "Content-Type"
        = d.MediaTypeError ++ d.Suffix (d.Negotiate (r.HeaderGet "Accept")) := by
  refine ⟨run_provider_failure d reg r op inv e hmem hprov herr, ?_⟩
  simp [failWithError, hnot, fail_new, ResponseWriter.HeaderGet, lookup_head]

/-- C3, for a provider whose `ReadNamespace` fails with a plain error. -/
theorem failWithError_untyped_error_witness :
    (⟨.ReadNamespace "nonexistent", some (.plain "database is locked")⟩ : Invocation)
      ∈ (Op.readNamespace.run sampleDeps (readNamespaceFails (.plain "database is locked"))
          testNotFoundRequest).log
    ∧ (failWithError sampleDeps ResponseWriter.new testNotFoundRequest
          (.plain "database is locked")).body
        = (sampleDeps.Encode (sampleDeps.Negotiate (testNotFoundRequest.HeaderGet "Accept"))
            (.error { Code := .InternalError, Message := "database is locked" })).1 :=
  ⟨by decide,
   (failWithError_untyped_error sampleDeps (readNamespaceFails (.plain "database is locked"))
      testNotFoundRequest .readNamespace
      ⟨.ReadNamespace "nonexistent", some (.plain "database is locked")⟩
      (.plain "database is locked") (by decide) rfl rfl rfl).2.2.1⟩

/-- C4: when the decoding of the body fails in one of the eight create and
update handlers, whatever the reason, the response has status 400, its body is
the encoding of the error value with code `BadRequest` and the text of the
decoding error as message, and no call reaches the provider. -/
theorem decode_failure_is_bad_request {F : Type} (d : Deps F) (reg : Registry) (r : Request)
    (op : Op) (err : GoError) (hdec : op.decodeError d r = some err) :
    op ∈ [Op.createNamespace, .updateNamespace, .createResource, .updateResource,
          .createVersion, .updateVersion, .createChannel, .updateChannel]
    ∧ (op.run d reg r).w.status = 400
    ∧ (op.run d reg r).w.body
        = (d.Encode (d.Negotiate (r.HeaderGet "Accept"))
            (.error { Code := .BadRequest, Message := err.Error })).1
    ∧ (op.run d reg r).w.HeaderGet "Content-Type"
        = d.MediaTypeError ++ d.Suffix (d.Negotiate (r.HeaderGet "Accept"))
    ∧ (op.run d reg r).log.all (fun inv => !inv.call.isProvider) = true := by
  cases op <;> simp only [Op.decodeError] at hdec <;> try (exact absurd hdec (by simp))
  all_goals
    simp only [Op.run, createNamespace, updateNamespace, createResource, updateResource,
      createVersion, updateVersion, createChannel, updateChannel]
    split
    · rename_i hd
      have hl := decode_log_of_eq _ _ _ _ _ _ _ _ hd
      rw [hd] at hdec
      simp at hdec
      subst hdec
      simp [fail_new, ResponseWriter.HeaderGet, lookup_head]
      intro inv hinv
      exact hl inv hinv
    · rename_i hd
      rw [hd] at hdec
      simp at hdec

/-- C4, at the request of `TestInvalidContentType`. -/
theorem decode_failure_is_bad_request_witness :
    Op.createNamespace.decodeError sampleDeps testInvalidContentTypeRequest
      = some (.wrapError "invalid Content-Type: unsupported content type: application/json"
          (.plain "unsupported content type: application/json"))
    ∧ (Op.createNamespace.run sampleDeps mockRegistry testInvalidContentTypeRequest).w.status
        = 400
    ∧ (Op.createNamespace.run sampleDeps mockRegistry testInvalidContentTypeRequest).log.all
        (fun inv => !inv.call.isProvider) = true :=
  ⟨by rfl,
   (decode_failure_is_bad_request sampleDeps mockRegistry testInvalidContentTypeRequest
      .createNamespace _ (by rfl)).2.1,
   (decode_failure_is_bad_request sampleDeps mockRegistry testInvalidContentTypeRequest
      .createNamespace _ (by rfl)).2.2.2.2⟩

/-- C5: when the Content-Type header parses and its base kind is not equal to
the expected kind under case folding, `decode` returns the kind-mismatch
error without calling `codec.Decode`: nothing is added to the log, the target
is returned as it was, and the outcome is the same for every decoder and
every body. -/
theorem decode_kind_mismatch {F α : Type} (d : Deps F)
    (dec : Bytes → F → α → α × Option GoError) (r : Request) (expected : MediaType) (v : α)
    (log : List Invocation) (ct : F) (k : String)
    (hparse : d.Parse (r.HeaderGet "Content-Type") = .ok (ct, k))
    (hne : EqualFold d k expected = false) :
    decode d dec r expected v log =
      (v, some (.plain ("expected Content-Type " ++ expected ++ "+\x7bformat\x7d, got "
        ++ r.HeaderGet "Content-Type")), log)
    ∧ ∀ (dec2 : Bytes → F → α → α × Option GoError) (body : Bytes),
        decode d dec2 { r with Body := body } expected v log = decode d dec r expected v log := by
  have h1 := decode_of_parse_ok d dec r expected v log ct k hparse
  rw [hne] at h1
  refine ⟨by simpa using h1, fun dec2 body => ?_⟩
  have h2 := decode_of_parse_ok d dec2 { r with Body := body } expected v log ct k hparse
  rw [hne] at h2
  rw [h1, h2]
  rfl

/-- C5, at a namespace creation whose Content-Type names the resource-info
kind: the body is not decoded. -/
theorem decode_kind_mismatch_witness :
    sampleDeps.Parse (wrongKindRequest.HeaderGet "Content-Type")
      = .ok (Format.json, "application/vnd.crucible.resource-info.v0")
    ∧ EqualFold sampleDeps "application/vnd.crucible.resource-info.v0"
        sampleDeps.MediaTypeNamespaceInfo = false
    ∧ decode sampleDeps sampleDeps.DecodeNamespaceInfo wrongKindRequest
        sampleDeps.MediaTypeNamespaceInfo NamespaceInfo.zero []
      = (NamespaceInfo.zero,
         some (.plain ("expected Content-Type " ++ sampleDeps.MediaTypeNamespaceInfo
           ++ "+\x7bformat\x7d, got " ++ wrongKindRequest.HeaderGet "Content-Type")), []) :=
  ⟨rfl, by decide,
   (decode_kind_mismatch sampleDeps sampleDeps.DecodeNamespaceInfo wrongKindRequest
      sampleDeps.MediaTypeNamespaceInfo NamespaceInfo.zero [] Format.json
      "application/vnd.crucible.resource-info.v0" rfl (by decide)).1⟩

/-- C6: when the Content-Type header parses to the format `ct` and the base
kind `k`, `decode` compares `k` with the expected kind by `strings.EqualFold`
and by nothing else: if they are equal under case folding its result is
exactly the result of `codec.Decode` on the body in the format `ct`, and
otherwise it is the kind-mismatch error; it returns without calling
`codec.Decode` if and only if the kinds differ under case folding. -/
theorem decode_kind_check_is_EqualFold {F α : Type} (d : Deps F)
    (dec : Bytes → F → α → α × Option GoError) (r : Request) (expected : MediaType) (v : α)
    (log : List Invocation) (ct : F) (k : String)
    (hparse : d.Parse (r.HeaderGet "Content-Type") = .ok (ct, k)) :
    decode d dec r expected v log =
      (if EqualFold d k expected then
        ((dec r.Body ct v).1, (dec r.Body ct v).2,
          log ++ [⟨.Decode r.Body, (dec r.Body ct v).2⟩])
      else
        (v, some (.plain ("expected Content-Type " ++ expected ++ "+\x7bformat\x7d, got "
          ++ r.HeaderGet "Content-Type")), log))
    ∧ ((decode d dec r expected v log).2.2 = log ↔ EqualFold d k expected = false) := by
  have h := decode_of_parse_ok d dec r expected v log ct k hparse
  refine ⟨h, ?_⟩
  rw [h]
  cases EqualFold d k expected <;> simp

/-- C6, at a Content-Type that spells the expected kind in upper case: the
kinds are equal under case folding and the body is decoded. -/
theorem decode_kind_check_is_EqualFold_witness :
    sampleDeps.Parse (upperCaseKindRequest.HeaderGet "Content-Type")
      = .ok (Format.json, "APPLICATION/VND.CRUCIBLE.NAMESPACE-INFO.V0")
    ∧ EqualFold sampleDeps "APPLICATION/VND.CRUCIBLE.NAMESPACE-INFO.V0"
        sampleDeps.MediaTypeNamespaceInfo = true
    ∧ ((decode sampleDeps sampleDeps.DecodeNamespaceInfo upperCaseKindRequest
          sampleDeps.MediaTypeNamespaceInfo NamespaceInfo.zero []).2.2 = []
        ↔ EqualFold sampleDeps "APPLICATION/VND.CRUCIBLE.NAMESPACE-INFO.V0"
            sampleDeps.MediaTypeNamespaceInfo = false) :=
  ⟨rfl, by decide,
   (decode_kind_check_is_EqualFold sampleDeps sampleDeps.DecodeNamespaceInfo
      upperCaseKindRequest sampleDeps.MediaTypeNamespaceInfo NamespaceInfo.zero []
      Format.json "APPLICATION/VND.CRUCIBLE.NAMESPACE-INFO.V0" rfl).2⟩

/-- C7: when `codec.Parse` fails on the Content-Type header with the error
`perr`, `decode` returns the error `invalid Content-Type: ` followed by the
text of `perr`, wrapping `perr`, whatever the expected kind, the decoder and
the body; the target and the log are as before, so that neither the kind
comparison nor `codec.Decode` has any part in the result. -/
theorem decode_malformed_content_type {F : Type} (d : Deps F) (r : Request) (perr : GoError)
    (hparse : d.Parse (r.HeaderGet "Content-Type") = .error perr) :
    ∀ (α : Type) (dec : Bytes → F → α → α × Option GoError) (expected : MediaType)
      (body : Bytes) (v : α) (log : List Invocation),
      decode d dec { r with Body := body } expected v log =
        (v, some (.wrapError ("invalid Content-Type: " ++ perr.Error) perr), log) := by
  intro α dec expected body v log
  exact decode_of_parse_error d dec { r with Body := body } expected v log perr hparse

/-- C7, at the Content-Type `application/json` of `TestInvalidContentType`. -/
theorem decode_malformed_content_type_witness :
    sampleDeps.Parse (testInvalidContentTypeRequest.HeaderGet "Content-Type")
      = .error (.plain "unsupported content type: application/json")
    ∧ decode sampleDeps sampleDeps.DecodeNamespaceInfo
        { testInvalidContentTypeRequest with Body := testInvalidContentTypeRequest.Body }
        sampleDeps.MediaTypeNamespaceInfo NamespaceInfo.zero []
      = (NamespaceInfo.zero,
         some (.wrapError ("invalid Content-Type: "
            ++ (GoError.plain "unsupported content type: application/json").Error)
           (.plain "unsupported content type: application/json")), []) :=
  ⟨rfl,
   decode_malformed_content_type sampleDeps testInvalidContentTypeRequest
     (.plain "unsupported content type: application/json") rfl
     NamespaceInfo sampleDeps.DecodeNamespaceInfo sampleDeps.MediaTypeNamespaceInfo
     testInvalidContentTypeRequest.Body NamespaceInfo.zero []⟩

/-! ## Identifiers and `JoinPath` -/

theorem plainChar_of_isLowerAlnum (c : Char) (h : (isLowerAlnum c || c == '-') = true) :
    plainChar c = true := by
  simp only [isLowerAlnum, plainChar, Char.isAlphanum, Char.isAlpha, Bool.or_eq_true] at h ⊢
  rcases h with (h | h) | h
  · simp [h]
  · simp [h]
  · simp [h]

theorem plainSegment_of_validIdentifier (s : String) (h : validIdentifier s = true) :
    plainSegment s = true := by
  obtain ⟨l⟩ := s
  simp only [validIdentifier, Bool.and_eq_true, decide_eq_true_eq] at h
  obtain ⟨⟨⟨⟨hlen, -⟩, hall⟩, -⟩, -⟩ := h
  have hall2 : ∀ c ∈ l, (isLowerAlnum c || c == '-') = true := by
    simpa [List.all_eq_true] using hall
  simp only [plainSegment, Bool.and_eq_true, Bool.not_eq_true', List.all_eq_true]
  refine ⟨⟨⟨?_, fun c hc => plainChar_of_isLowerAlnum c (hall2 c hc)⟩, ?_⟩, ?_⟩
  · cases l with
    | nil => simp at hlen
    | cons a t => rfl
  · apply beq_false_of_ne
    intro hEq
    have hd : l = ['.'] := by simpa using congrArg String.data hEq
    have := hall2 '.' (by simp [hd])
    revert this
    decide
  · apply beq_false_of_ne
    intro hEq
    have hd : l = ['.', '.'] := by simpa using congrArg String.data hEq
    have := hall2 '.' (by simp [hd])
    revert this
    decide

theorem plainSegment_of_validVersionString (s : String) (h : validVersionString s = true) :
    plainSegment s = true := by
  obtain ⟨l⟩ := s
  simp only [validVersionString, Bool.and_eq_true] at h
  obtain ⟨hhead, hall⟩ := h
  have hall2 : ∀ c ∈ l, (c.isAlphanum || c == '.' || c == '-' || c == '+') = true := by
    simpa [List.all_eq_true] using hall
  cases l with
  | nil => simp at hhead
  | cons a t =>
    simp only [List.head?_cons, Option.map_some', Option.getD_some] at hhead
    simp only [plainSegment, Bool.and_eq_true, Bool.not_eq_true', List.all_eq_true]
    refine ⟨⟨⟨rfl, fun c hc => ?_⟩, ?_⟩, ?_⟩
    · have := hall2 c hc
      simp only [plainChar, Bool.or_eq_true] at this ⊢
      rcases this with ((h1 | h1) | h1) | h1 <;> simp [h1]
    · apply beq_false_of_ne
      intro hEq
      have hd : a :: t = ['.'] := by simpa using congrArg String.data hEq
      have ha : a = '.' := by simpa using (List.cons.inj hd).1
      subst ha
      revert hhead
      decide
    · apply beq_false_of_ne
      intro hEq
      have hd : a :: t = ['.', '.'] := by simpa using congrArg String.data hEq
      have ha : a = '.' := by simpa using (List.cons.inj hd).1
      subst ha
      revert hhead
      decide

theorem JoinPath_namespaces {F : Type} (d : Deps F) (elem : List String)
    (h : elem.all plainSegment = true) :
    JoinPath d "/namespaces" elem = elem.foldl (fun acc e => acc ++ "/" ++ e) "/namespaces" := by
  have hb : ("/namespaces" : String).data = '/' :: ("namespaces" : String).data := rfl
  have hp : plainSegment ⟨("namespaces" : String).data⟩ = true := by decide
  unfold JoinPath
  rw [hb]
  simp only [hp, h, Bool.and_self, if_true]

/-- C8: when the body of a `POST /namespaces` request decodes to `info` and the
provider's `CreateNamespace` returns the namespace `ns`, whose name is a valid
identifier, the response has status 201, the Location header `/namespaces/`
followed by that name, the namespace media kind with the negotiated suffix as
Content-Type, and the encoding of `ns` as body. -/
theorem createNamespace_created {F : Type} (d : Deps F) (reg : Registry) (r : Request)
    (info : NamespaceInfo) (log : List Invocation) (ns : Namespace)
    (hdec : decode d d.DecodeNamespaceInfo r d.MediaTypeNamespaceInfo NamespaceInfo.zero []
      = (info, none, log))
    (hcreate : reg.CreateNamespace info = .ok ns)
    (hname : validIdentifier ns.Name = true) :
    (Op.createNamespace.run d reg r).w.status = 201
    ∧ (Op.createNamespace.run d reg r).w.HeaderGet "Location" = "/namespaces/" ++ ns.Name
    ∧ (Op.createNamespace.run d reg r).w.HeaderGet "Content-Type"
        = d.MediaTypeNamespace ++ d.Suffix (d.Negotiate (r.HeaderGet "Accept"))
    ∧ (Op.createNamespace.run d reg r).w.body
        = (d.Encode (d.Negotiate (r.HeaderGet "Accept")) (.namespace ns)).1 := by
  have hj : JoinPath d "/namespaces" [ns.Name] = "/namespaces/" ++ ns.Name := by
    rw [JoinPath_namespaces d _ (by simp [plainSegment_of_validIdentifier _ hname])]
    rfl
  simp only [Op.run, createNamespace, hdec, hcreate, hj]
  rw [encode_fresh _ _ _ _ _ _ (by simp [ResponseWriter.HeaderSet, ResponseWriter.new])]
  simp [ResponseWriter.HeaderGet, ResponseWriter.HeaderSet, ResponseWriter.new, lookup]

/-- C8, at the request of `TestCreateNamespace` against the mock provider. -/
theorem createNamespace_created_witness :
    decode sampleDeps sampleDeps.DecodeNamespaceInfo testCreateNamespaceRequest
        sampleDeps.MediaTypeNamespaceInfo NamespaceInfo.zero []
      = ({ Name := "acme", Description := "" }, none,
         [⟨.Decode testCreateNamespaceRequest.Body, none⟩])
    ∧ validIdentifier "acme" = true
    ∧ (Op.createNamespace.run sampleDeps mockRegistry testCreateNamespaceRequest).w.HeaderGet
        "Location" = "/namespaces/" ++ "acme" :=
  ⟨rfl, by decide,
   (createNamespace_created sampleDeps mockRegistry testCreateNamespaceRequest
      { Name := "acme", Description := "" } [⟨.Decode testCreateNamespaceRequest.Body, none⟩]
      { Name := "acme", Description := "", CreatedAt := 0, UpdatedAt := 0 }
      rfl rfl (by decide)).2.1⟩

/-- C9: on provider success `createResource` responds 201 with the Location
`/namespaces/{ns}/resources/{name}` and `createVersion` responds 201 with the
Location `/namespaces/{ns}/resources/{r}/versions/{version}`, where `ns` and
`r` are the path parameters of the request, valid identifiers, and `name`,
`version` are the name of the returned resource, a valid identifier, and the
string of the returned version, a version string. -/
theorem createResource_createVersion_location {F : Type} (d : Deps F) (reg : Registry)
    (r1 r2 : Request) (info1 : ResourceInfo) (info2 : VersionInfo)
    (log1 log2 : List Invocation) (res : Resource) (ver : Version)
    (hdec1 : decode d d.DecodeResourceInfo r1 d.MediaTypeResourceInfo ResourceInfo.zero []
      = (info1, none, log1))
    (hcreate1 : reg.CreateResource (r1.PathValue "namespace") info1 = .ok res)
    (hns1 : validIdentifier (r1.PathValue "namespace") = true)
    (hname : validIdentifier res.Name = true)
    (hdec2 : decode d d.DecodeVersionInfo r2 d.MediaTypeVersionInfo VersionInfo.zero []
      = (info2, none, log2))
    (hcreate2 : reg.CreateVersion (r2.PathValue "namespace") (r2.PathValue "resource") info2
      = .ok ver)
    (hns2 : validIdentifier (r2.PathValue "namespace") = true)
    (hres2 : validIdentifier (r2.PathValue "resource") = true)
    (hver : validVersionString ver.String = true) :
    ((Op.createResource.run d reg r1).w.status = 201
      ∧ (Op.createResource.run d reg r1).w.HeaderGet "Location"
          = "/namespaces/" ++ r1.PathValue "namespace" ++ "/resources/" ++ res.Name)
    ∧ ((Op.createVersion.run d reg r2).w.status = 201
      ∧ (Op.createVersion.run d reg r2).w.HeaderGet "Location"
          = "/namespaces/" ++ r2.PathValue "namespace" ++ "/resources/"
              ++ r2.PathValue "resource" ++ "/versions/" ++ ver.String) := by
  have hp : plainSegment "resources" = true := by decide
  have hq : plainSegment "versions" = true := by decide
  have hj1 : JoinPath d "/namespaces" [r1.PathValue "namespace", "resources", res.Name]
      = "/namespaces/" ++ r1.PathValue "namespace" ++ "/resources/" ++ res.Name := by
    rw [JoinPath_namespaces d _ (by
      simp [plainSegment_of_validIdentifier _ hns1, plainSegment_of_validIdentifier _ hname, hp])]
    simp [List.foldl, String.append_assoc]
  have hj2 : JoinPath d "/namespaces"
        [r2.PathValue "namespace", "resources", r2.PathValue "resource", "versions", ver.String]
      = "/namespaces/" ++ r2.PathValue "namespace" ++ "/resources/"
          ++ r2.PathValue "resource" ++ "/versions/" ++ ver.String := by
    rw [JoinPath_namespaces d _ (by
      simp [plainSegment_of_validIdentifier _ hns2, plainSegment_of_validIdentifier _ hres2,
        plainSegment_of_validVersionString _ hver, hp, hq])]
    simp [List.foldl, String.append_assoc]
  constructor
  · simp only [Op.run, createResource, hdec1, hcreate1, hj1]
    rw [encode_fresh _ _ _ _ _ _ (by simp [ResponseWriter.HeaderSet, ResponseWriter.new])]
    simp [ResponseWriter.HeaderGet, ResponseWriter.HeaderSet, ResponseWriter.new, lookup]
  · simp only [Op.run, createVersion, hdec2, hcreate2, hj2]
    rw [encode_fresh _ _ _ _ _ _ (by simp [ResponseWriter.HeaderSet, ResponseWriter.new])]
    simp [ResponseWriter.HeaderGet, ResponseWriter.HeaderSet, ResponseWriter.new, lookup]

/-- C9, at the requests of `TestCreateResource` and `TestCreateVersion`
against the mock provider. -/
theorem createResource_createVersion_location_witness :
    (validIdentifier (testCreateResourceRequest.PathValue "namespace") = true
      ∧ validIdentifier "widget" = true
      ∧ validIdentifier (testCreateVersionRequest.PathValue "namespace") = true
      ∧ validIdentifier (testCreateVersionRequest.PathValue "resource") = true
      ∧ validVersionString "1.0.0" = true)
    ∧ (Op.createResource.run sampleDeps mockRegistry testCreateResourceRequest).w.HeaderGet
        "Location"
        = "/namespaces/" ++ testCreateResourceRequest.PathValue "namespace" ++ "/resources/"
            ++ "widget"
    ∧ (Op.createVersion.run sampleDeps mockRegistry testCreateVersionRequest).w.HeaderGet
        "Location"
        = "/namespaces/" ++ testCreateVersionRequest.PathValue "namespace" ++ "/resources/"
            ++ testCreateVersionRequest.PathValue "resource" ++ "/versions/" ++ "1.0.0" :=
  have h := createResource_createVersion_location sampleDeps mockRegistry
    testCreateResourceRequest testCreateVersionRequest
    { Name := "widget", Typ := "", Description := "" } { String := "1.0.0" }
    [⟨.Decode testCreateResourceRequest.Body, none⟩]
    [⟨.Decode testCreateVersionRequest.Body, none⟩]
    { Namespace := "test", Name := "widget", Typ := "", Description := "",
      CreatedAt := 0, UpdatedAt := 0 }
    { Namespace := "test", Resource := "widget", String := "1.0.0",
      CreatedAt := 0, UpdatedAt := 0 }
    rfl rfl (by decide) (by decide) rfl rfl (by decide) (by decide) (by decide)
  ⟨⟨by decide, by decide, by decide, by decide, by decide⟩, h.1.2, h.2.2⟩

/-- C10 (what the code does): `createChannel` never sets a Location header,
whatever the request and the provider; at the request of `TestCreateChannel`
against the mock provider the response is 201 without a Location header,
while `createResource` and `createVersion` set one on theirs. -/
theorem createChannel_sets_no_location :
    (∀ (F : Type) (d : Deps F) (reg : Registry) (r : Request),
        (Op.createChannel.run d reg r).w.hasHeader "Location" = false)
    ∧ (Op.createChannel.run sampleDeps mockRegistry testCreateChannelRequest).w.status = 201
    ∧ (Op.createChannel.run sampleDeps mockRegistry testCreateChannelRequest).w.HeaderGet
        "Location" = ""
    ∧ (Op.createChannel.run sampleDeps mockRegistry testCreateChannelRequest).log
        = [⟨.Decode testCreateChannelRequest.Body, none⟩,
           ⟨.CreateChannel "test" "widget"
              { Name := "stable", Version := "", Description := "" }, none⟩]
    ∧ (Op.createVersion.run sampleDeps mockRegistry testCreateVersionRequest).w.hasHeader
        "Location" = true := by
  refine ⟨?_, by decide, by decide, by decide, by decide⟩
  intro F d reg r
  simp only [Op.run, createChannel]
  split
  · simp [fail_new, ResponseWriter.hasHeader]
  · split
    · simp only [failWithError]
      split <;> simp [fail_new, ResponseWriter.hasHeader]
    · rw [encode_fresh _ _ _ _ _ _ rfl]
      simp [ResponseWriter.hasHeader, ResponseWriter.new]

/-! ## Status of an error response -/

theorem failWithError_new {F : Type} (d : Deps F) (r : Request) (e : GoError) :
    failWithError d ResponseWriter.new r e =
      { header := [("Content-Type",
          d.MediaTypeError ++ d.Suffix (d.Negotiate (r.HeaderGet "Accept")))],
        wroteHeader := true,
        status := (match e.asRegistry with
          | some regErr => errorCodeToHTTPStatus regErr.Code
          | none => 500),
        body := (d.Encode (d.Negotiate (r.HeaderGet "Accept"))
          (.error (match e.asRegistry with
            | some regErr => { Code := regErr.Code, Message := regErr.Message }
            | none => { Code := .InternalError, Message := e.Error }))).1 } := by
  unfold failWithError
  cases e.asRegistry <;> simp [fail_new]

theorem errorCodeToHTTPStatus_range (c : ErrorCode) :
    errorCodeToHTTPStatus c ∈ [400, 404, 406, 409, 412, 415, 500] := by
  cases c <;> simp [errorCodeToHTTPStatus]

theorem failWithError_status_ne_204 {F : Type} (d : Deps F) (r : Request) (e : GoError) :
    (failWithError d ResponseWriter.new r e).status ≠ 204 := by
  rw [failWithError_new]
  cases e.asRegistry with
  | none => simp
  | some regErr =>
    have h := errorCodeToHTTPStatus_range regErr.Code
    simp only [List.mem_cons, List.mem_singleton, List.not_mem_nil, or_false] at h
    simp only
    omega

/-- C11: for each of the four delete handlers and every request, the response
is 204 with an empty body if and only if the provider's delete call returns
no error.  Nothing else enters: with a provider whose delete succeeds for an
absent entity, as the mock provider's does, every delete is answered 204
with an empty body, the first time and again. -/
theorem delete_no_content_iff_no_error {F : Type} (d : Deps F) (reg : Registry) (r : Request) :
    (((Op.deleteNamespace.run d reg r).w.status = 204
        ∧ (Op.deleteNamespace.run d reg r).w.body = [])
      ↔ reg.DeleteNamespace (r.PathValue "namespace") = none)
    ∧ (((Op.deleteResource.run d reg r).w.status = 204
        ∧ (Op.deleteResource.run d reg r).w.body = [])
      ↔ reg.DeleteResource (r.PathValue "namespace") (r.PathValue "resource") = none)
    ∧ (((Op.deleteVersion.run d reg r).w.status = 204
        ∧ (Op.deleteVersion.run d reg r).w.body = [])
      ↔ reg.DeleteVersion (r.PathValue "namespace") (r.PathValue "resource")
          (r.PathValue "version") = none)
    ∧ (((Op.deleteChannel.run d reg r).w.status = 204
        ∧ (Op.deleteChannel.run d reg r).w.body = [])
      ↔ reg.DeleteChannel (r.PathValue "namespace") (r.PathValue "resource")
          (r.PathValue "channel") = none)
    ∧ ((Op.deleteNamespace.run d mockRegistry r).w.status = 204
        ∧ (Op.deleteNamespace.run d mockRegistry r).w.body = []
        ∧ (Op.deleteNamespace.run sampleDeps mockRegistry testDeleteNamespaceRequest).w
            = { header := [], wroteHeader := true, status := 204, body := [] }) := by
  refine ⟨?_, ?_, ?_, ?_, ?_, ?_, ?_⟩
  · simp only [Op.run, deleteNamespace]
    cases h : reg.DeleteNamespace (r.PathValue "namespace") with
    | none => simp [ResponseWriter.WriteHeader, ResponseWriter.new]
    | some e => simp [failWithError_status_ne_204]
  · simp only [Op.run, deleteResource]
    cases h : reg.DeleteResource (r.PathValue "namespace") (r.PathValue "resource") with
    | none => simp [ResponseWriter.WriteHeader, ResponseWriter.new]
    | some e => simp [failWithError_status_ne_204]
  · simp only [Op.run, deleteVersion]
    cases h : reg.DeleteVersion (r.PathValue "namespace") (r.PathValue "resource")
        (r.PathValue "version") with
    | none => simp [ResponseWriter.WriteHeader, ResponseWriter.new]
    | some e => simp [failWithError_status_ne_204]
  · simp only [Op.run, deleteChannel]
    cases h : reg.DeleteChannel (r.PathValue "namespace") (r.PathValue "resource")
        (r.PathValue "channel") with
    | none => simp [ResponseWriter.WriteHeader, ResponseWriter.new]
    | some e => simp [failWithError_status_ne_204]
  · rfl
  · rfl
  · rfl

/-! ## Successful list, read and update -/

theorem encode_new {F : Type} (d : Deps F) (r : Request) (mediaType : MediaType) (status : Nat)
    (v : Value) :
    (encode d ResponseWriter.new r mediaType status v).1 =
      { header := [("Content-Type", mediaType ++ d.Suffix (d.Negotiate (r.HeaderGet "Accept")))],
        wroteHeader := true,
        status := status,
        body := (d.Encode (d.Negotiate (r.HeaderGet "Accept")) v).1 } := by
  rw [encode_fresh _ _ _ _ _ _ rfl]
  simp [ResponseWriter.new]

theorem append_right_cancel_string (a b s : String) (h : a ++ s = b ++ s) : a = b := by
  have h2 : (a ++ s).data = (b ++ s).data := congrArg String.data h
  simp only [String.data_append] at h2
  exact String.ext (List.append_cancel_right h2)

/-- C12: when the provider call of a list, read or update handler succeeds
with the value `v`, the response has status 200, its body is the encoding
of `v`, and its Content-Type is the response media kind of the operation with
the negotiated suffix: the list kind for a list handler, the kind of the full
entity for a read or update handler.  It is the info kind of the request only
if the two kinds are the same string. -/
theorem list_read_update_ok {F : Type} (d : Deps F) (reg : Registry) (r : Request) (op : Op)
    (v : Value) (hv : op.providerValue d reg r = some v) :
    op ∈ [Op.listNamespaces, .readNamespace, .updateNamespace,
          .listResources, .readResource, .updateResource,
          .listVersions, .readVersion, .updateVersion,
          .listChannels, .readChannel, .updateChannel]
    ∧ (op.run d reg r).w.status = 200
    ∧ (op.run d reg r).w.body = (d.Encode (d.Negotiate (r.HeaderGet "Accept")) v).1
    ∧ (op.run d reg r).w.HeaderGet "Content-Type"
        = op.responseKindSpec d ++ d.Suffix (d.Negotiate (r.HeaderGet "Accept"))
    ∧ ((op.run d reg r).w.HeaderGet "Content-Type"
          = op.infoKind d ++ d.Suffix (d.Negotiate (r.HeaderGet "Accept"))
        → op.responseKindSpec d = op.infoKind d) := by
  have key : op ∈ [Op.listNamespaces, .readNamespace, .updateNamespace,
          .listResources, .readResource, .updateResource,
          .listVersions, .readVersion, .updateVersion,
          .listChannels, .readChannel, .updateChannel]
      ∧ (op.run d reg r).w
        = { header := [("Content-Type",
              op.responseKindSpec d ++ d.Suffix (d.Negotiate (r.HeaderGet "Accept")))],
            wroteHeader := true,
            status := 200,
            body := (d.Encode (d.Negotiate (r.HeaderGet "Accept")) v).1 } := by
    cases op <;> simp only [Op.providerValue] at hv <;> try (exact Option.noConfusion hv)
    case listNamespaces | readNamespace | listResources | readResource | listVersions
        | readVersion | listChannels | readChannel =>
      simp only [Op.run, listNamespaces, readNamespace, listResources, readResource,
        listVersions, readVersion, listChannels, readChannel, Op.responseKindSpec]
      split
      · rename_i he
        rw [he] at hv
        simp [Except.toOption] at hv
      · rename_i he
        rw [he] at hv
        simp [Except.toOption] at hv
        subst hv
        simp [encode_new]
    all_goals
      simp only [Op.run, updateNamespace, updateResource, updateVersion, updateChannel,
        Op.responseKindSpec]
      split
      · rename_i hd
        rw [hd] at hv
        simp at hv
      · rename_i hd
        rw [hd] at hv
        simp only at hv
        split
        · rename_i he
          rw [he] at hv
          simp [Except.toOption] at hv
        · rename_i he
          rw [he] at hv
          simp [Except.toOption] at hv
          subst hv
          simp [encode_new]
  obtain ⟨hop, hw⟩ := key
  rw [hw]
  refine ⟨hop, rfl, rfl, by simp [ResponseWriter.HeaderGet, lookup_head], ?_⟩
  intro h
  simp only [ResponseWriter.HeaderGet, lookup_head] at h
  exact append_right_cancel_string _ _ _ h

/-- C12, at the request of `TestUpdateResource`: status 200 and the resource
kind, not the resource-info kind of the request. -/
theorem list_read_update_ok_witness :
    Op.updateResource.providerValue sampleDeps testUpdateResourceRegistry
        testUpdateResourceRequest
      = some (.resource { Namespace := "test", Name := "widget", Typ := "", Description := "",
                          CreatedAt := 1234567890, UpdatedAt := 0 })
    ∧ (Op.updateResource.run sampleDeps testUpdateResourceRegistry
        testUpdateResourceRequest).w.status = 200
    ∧ (Op.updateResource.run sampleDeps testUpdateResourceRegistry
        testUpdateResourceRequest).w.HeaderGet "Content-Type"
        = Op.updateResource.responseKindSpec sampleDeps
            ++ sampleDeps.Suffix (sampleDeps.Negotiate
                (testUpdateResourceRequest.HeaderGet "Accept")) :=
  ⟨rfl,
   (list_read_update_ok sampleDeps testUpdateResourceRegistry testUpdateResourceRequest
      .updateResource _ rfl).2.1,
   (list_read_update_ok sampleDeps testUpdateResourceRegistry testUpdateResourceRequest
      .updateResource _ rfl).2.2.2.1⟩

/-! ## Archive download -/

/-- C13: when the provider returns the stream `b` for the path parameters
`(nspace, resource, version)` of a version-archive download, the response has
status 200, the Content-Type is exactly the archive media type, the
Content-Disposition is exactly `attachment; filename="{resource}-{version}.tar.zst"`,
and the body is `b`. -/
theorem downloadArchive_ok {F : Type} (d : Deps F) (reg : Registry) (r : Request) (b : Bytes)
    (hdl : reg.DownloadArchive (r.PathValue "namespace") (r.PathValue "resource")
      (r.PathValue "version") = .ok b) :
    (Op.downloadArchive.run d reg r).w.status = 200
    ∧ (Op.downloadArchive.run d reg r).w.HeaderGet "Content-Type" = d.MediaTypeArchive
    ∧ (Op.downloadArchive.run d reg r).w.HeaderGet "Content-Disposition"
        = "attachment; filename=\"" ++ r.PathValue "resource" ++ "-" ++ r.PathValue "version"
            ++ ".tar.zst\""
    ∧ (Op.downloadArchive.run d reg r).w.body = b := by
  simp [Op.run, downloadArchive, hdl, ResponseWriter.HeaderSet, ResponseWriter.new,
    ResponseWriter.Write, ResponseWriter.WriteHeader, ResponseWriter.HeaderGet, lookup]

/-- C13, at the request of `TestDownloadArchive`. -/
theorem downloadArchive_ok_witness :
    testDownloadArchiveRegistry.DownloadArchive
        (testDownloadArchiveRequest.PathValue "namespace")
        (testDownloadArchiveRequest.PathValue "resource")
        (testDownloadArchiveRequest.PathValue "version") = .ok (bytesOf "archive data")
    ∧ (Op.downloadArchive.run sampleDeps testDownloadArchiveRegistry
        testDownloadArchiveRequest).w.HeaderGet "Content-Disposition"
        = "attachment; filename=\"" ++ testDownloadArchiveRequest.PathValue "resource" ++ "-"
            ++ testDownloadArchiveRequest.PathValue "version" ++ ".tar.zst\""
    ∧ (Op.downloadArchive.run sampleDeps testDownloadArchiveRegistry
        testDownloadArchiveRequest).w.body = bytesOf "archive data" :=
  ⟨rfl,
   (downloadArchive_ok sampleDeps testDownloadArchiveRegistry testDownloadArchiveRequest
      (bytesOf "archive data") rfl).2.2.1,
   (downloadArchive_ok sampleDeps testDownloadArchiveRegistry testDownloadArchiveRequest
      (bytesOf "archive data") rfl).2.2.2⟩

/-- C14: when the provider's `ReadChannel` fails with `e` in a download via a
channel, `ReadChannel` is the only call made, so `DownloadArchive` is not
invoked, and the response is the one `failWithError` writes for `e`: for a
domain error with code `NotFound` it has status 404 and carries that code and
the message. -/
theorem downloadChannelArchive_resolution_failure {F : Type} (d : Deps F) (reg : Registry)
    (r : Request) (e : GoError)
    (hread : reg.ReadChannel (r.PathValue "namespace") (r.PathValue "resource")
      (r.PathValue "channel") = .error e) :
    (Op.downloadChannelArchive.run d reg r).log
      = [⟨.ReadChannel (r.PathValue "namespace") (r.PathValue "resource")
            (r.PathValue "channel"), some e⟩]
    ∧ (∀ inv ∈ (Op.downloadChannelArchive.run d reg r).log,
        ∀ a b c : String, inv.call ≠ .DownloadArchive a b c)
    ∧ (Op.downloadChannelArchive.run d reg r).w = failWithError d ResponseWriter.new r e
    ∧ (∀ m t : String, e = .registry { Code := .NotFound, Message := m } t →
        (Op.downloadChannelArchive.run d reg r).w.status = 404
        ∧ (Op.downloadChannelArchive.run d reg r).w.body
            = (d.Encode (d.Negotiate (r.HeaderGet "Accept"))
                (.error { Code := .NotFound, Message := m })).1) := by
  have hs : Op.downloadChannelArchive.run d reg r
      = ⟨failWithError d ResponseWriter.new r e,
         [⟨.ReadChannel (r.PathValue "namespace") (r.PathValue "resource")
            (r.PathValue "channel"), some e⟩]⟩ := by
    simp [Op.run, downloadChannelArchive, hread]
  rw [hs]
  refine ⟨rfl, ?_, rfl, ?_⟩
  · intro inv hinv a b c
    simp at hinv
    subst hinv
    simp
  · intro m t he
    subst he
    simp [failWithError_new, GoError.asRegistry, errorCodeToHTTPStatus]

/-- C14, for a provider whose `ReadChannel` reports that the channel is not
found: the response is 404. -/
theorem downloadChannelArchive_resolution_failure_witness :
    (readChannelFails (.registry { Code := .NotFound, Message := "channel not found" } "nf")).ReadChannel
        (testDownloadChannelArchiveRequest.PathValue "namespace")
        (testDownloadChannelArchiveRequest.PathValue "resource")
        (testDownloadChannelArchiveRequest.PathValue "channel")
      = .error (.registry { Code := .NotFound, Message := "channel not found" } "nf")
    ∧ (Op.downloadChannelArchive.run sampleDeps
          (readChannelFails (.registry { Code := .NotFound, Message := "channel not found" } "nf"))
          testDownloadChannelArchiveRequest).log
        = [⟨.ReadChannel (testDownloadChannelArchiveRequest.PathValue "namespace")
              (testDownloadChannelArchiveRequest.PathValue "resource")
              (testDownloadChannelArchiveRequest.PathValue "channel"),
            some (.registry { Code := .NotFound, Message := "channel not found" } "nf")⟩]
    ∧ (Op.downloadChannelArchive.run sampleDeps
          (readChannelFails (.registry { Code := .NotFound, Message := "channel not found" } "nf"))
          testDownloadChannelArchiveRequest).w.status = 404 :=
  ⟨rfl,
   (downloadChannelArchive_resolution_failure sampleDeps
      (readChannelFails (.registry { Code := .NotFound, Message := "channel not found" } "nf"))
      testDownloadChannelArchiveRequest _ rfl).1,
   ((downloadChannelArchive_resolution_failure sampleDeps
      (readChannelFails (.registry { Code := .NotFound, Message := "channel not found" } "nf"))
      testDownloadChannelArchiveRequest _ rfl).2.2.2 "channel not found" "nf" rfl).1⟩

theorem downloadArchive_body {F : Type} (d : Deps F) (reg : Registry) (r : Request) (b : Bytes)
    (hdl : reg.DownloadArchive (r.PathValue "namespace") (r.PathValue "resource")
      (r.PathValue "version") = .ok b) :
    (Op.downloadArchive.run d reg r).w.body = b := by
  simp [Op.run, downloadArchive, hdl, ResponseWriter.HeaderSet, ResponseWriter.new,
    ResponseWriter.Write, ResponseWriter.WriteHeader]

theorem downloadArchive_disposition {F : Type} (d : Deps F) (reg : Registry) (r : Request)
    (b : Bytes)
    (hdl : reg.DownloadArchive (r.PathValue "namespace") (r.PathValue "resource")
      (r.PathValue "version") = .ok b) :
    (Op.downloadArchive.run d reg r).w.HeaderGet "Content-Disposition"
      = "attachment; filename=\"" ++ r.PathValue "resource" ++ "-" ++ r.PathValue "version"
          ++ ".tar.zst\"" := by
  simp [Op.run, downloadArchive, hdl, ResponseWriter.HeaderSet, ResponseWriter.new,
    ResponseWriter.Write, ResponseWriter.WriteHeader, ResponseWriter.HeaderGet, lookup]

theorem versionArchiveRequest_PathValue (r : Request) (nspace resource version : String) :
    (versionArchiveRequest r nspace resource version).PathValue "namespace" = nspace
    ∧ (versionArchiveRequest r nspace resource version).PathValue "resource" = resource
    ∧ (versionArchiveRequest r nspace resource version).PathValue "version" = version := by
  simp [versionArchiveRequest, Request.PathValue, lookup]

/-- C15: when the provider's `ReadChannel` returns the channel `ch` for the
path parameters `(nspace, resource, channel)` of a download via a channel,
the provider's `DownloadArchive` is invoked next, with exactly
`(nspace, resource, ch.Version.String)`.  When it returns the stream `b` the
response has status 200, the archive media type as Content-Type and the body
`b`, which is the body of an ordinary download of that version; when it fails
the response is the one `failWithError` writes. -/
theorem downloadChannelArchive_resolves {F : Type} (d : Deps F) (reg : Registry) (r : Request)
    (ch : Channel)
    (hread : reg.ReadChannel (r.PathValue "namespace") (r.PathValue "resource")
      (r.PathValue "channel") = .ok ch) :
    (Op.downloadChannelArchive.run d reg r).log
      = [⟨.ReadChannel (r.PathValue "namespace") (r.PathValue "resource")
            (r.PathValue "channel"), none⟩,
         ⟨.DownloadArchive (r.PathValue "namespace") (r.PathValue "resource") ch.Version.String,
          errOf (reg.DownloadArchive (r.PathValue "namespace") (r.PathValue "resource")
            ch.Version.String)⟩]
    ∧ (match reg.DownloadArchive (r.PathValue "namespace") (r.PathValue "resource")
          ch.Version.String with
       | .ok b =>
         (Op.downloadChannelArchive.run d reg r).w.status = 200
         ∧ (Op.downloadChannelArchive.run d reg r).w.HeaderGet "Content-Type"
             = d.MediaTypeArchive
         ∧ (Op.downloadChannelArchive.run d reg r).w.body = b
         ∧ (Op.downloadChannelArchive.run d reg r).w.body
             = (Op.downloadArchive.run d reg
                 (versionArchiveRequest r (r.PathValue "namespace") (r.PathValue "resource")
                   ch.Version.String)).w.body
       | .error e =>
         (Op.downloadChannelArchive.run d reg r).w = failWithError d ResponseWriter.new r e) := by
  obtain ⟨h1, h2, h3⟩ := versionArchiveRequest_PathValue r (r.PathValue "namespace")
    (r.PathValue "resource") ch.Version.String
  cases hdl : reg.DownloadArchive (r.PathValue "namespace") (r.PathValue "resource")
      ch.Version.String with
  | error e =>
    simp [Op.run, downloadChannelArchive, hread, hdl, errOf]
  | ok b =>
    have hb := (downloadArchive_body d reg
      (versionArchiveRequest r (r.PathValue "namespace") (r.PathValue "resource")
        ch.Version.String) b (by rw [h1, h2, h3]; exact hdl))
    rw [hb]
    simp [Op.run, downloadChannelArchive, hread, hdl, errOf, ResponseWriter.HeaderSet,
      ResponseWriter.new, ResponseWriter.Write, ResponseWriter.WriteHeader,
      ResponseWriter.HeaderGet, lookup]

/-- C15, at the request of `TestDownloadChannelArchive`: the channel `stable`
refers to the version `1.0.0`, whose archive is downloaded. -/
theorem downloadChannelArchive_resolves_witness :
    testDownloadChannelArchiveRegistry.ReadChannel
        (testDownloadChannelArchiveRequest.PathValue "namespace")
        (testDownloadChannelArchiveRequest.PathValue "resource")
        (testDownloadChannelArchiveRequest.PathValue "channel")
      = .ok { Namespace := "test", Resource := "widget", Name := "stable",
              Version := { Namespace := "", Resource := "", String := "1.0.0",
                           CreatedAt := 0, UpdatedAt := 0 },
              Description := "", CreatedAt := 0, UpdatedAt := 0 }
    ∧ (Op.downloadChannelArchive.run sampleDeps testDownloadChannelArchiveRegistry
        testDownloadChannelArchiveRequest).log
      = [⟨.ReadChannel "test" "widget" "stable", none⟩,
         ⟨.DownloadArchive "test" "widget" "1.0.0", none⟩] :=
  ⟨rfl,
   (downloadChannelArchive_resolves sampleDeps testDownloadChannelArchiveRegistry
      testDownloadChannelArchiveRequest _ rfl).1⟩

/-- The Content-Disposition of a successful download via a channel names the
resource and the channel of the request path; it is the header of the
ordinary download of the resolved version exactly when the channel name is
the version string. -/
theorem downloadChannelArchive_disposition_eq {F : Type} (d : Deps F) (reg : Registry)
    (r : Request) (ch : Channel) (b : Bytes)
    (hread : reg.ReadChannel (r.PathValue "namespace") (r.PathValue "resource")
      (r.PathValue "channel") = .ok ch)
    (hdl : reg.DownloadArchive (r.PathValue "namespace") (r.PathValue "resource")
      ch.Version.String = .ok b) :
    (Op.downloadChannelArchive.run d reg r).w.HeaderGet "Content-Disposition"
      = "attachment; filename=\"" ++ r.PathValue "resource" ++ "-" ++ r.PathValue "channel"
          ++ ".tar.zst\""
    ∧ ((Op.downloadChannelArchive.run d reg r).w.HeaderGet "Content-Disposition"
        = (Op.downloadArchive.run d reg
            (versionArchiveRequest r (r.PathValue "namespace") (r.PathValue "resource")
              ch.Version.String)).w.HeaderGet "Content-Disposition"
      ↔ r.PathValue "channel" = ch.Version.String) := by
  obtain ⟨h1, h2, h3⟩ := versionArchiveRequest_PathValue r (r.PathValue "namespace")
    (r.PathValue "resource") ch.Version.String
  have hord := (downloadArchive_disposition d reg
      (versionArchiveRequest r (r.PathValue "namespace") (r.PathValue "resource")
        ch.Version.String) b (by rw [h1, h2, h3]; exact hdl))
  rw [h2, h3] at hord
  have hch : (Op.downloadChannelArchive.run d reg r).w.HeaderGet "Content-Disposition"
      = "attachment; filename=\"" ++ r.PathValue "resource" ++ "-" ++ r.PathValue "channel"
          ++ ".tar.zst\"" := by
    simp [Op.run, downloadChannelArchive, hread, hdl, ResponseWriter.HeaderSet,
      ResponseWriter.new, ResponseWriter.Write, ResponseWriter.WriteHeader,
      ResponseWriter.HeaderGet, lookup]
  refine ⟨hch, ?_⟩
  rw [hch, hord]
  constructor
  · intro h
    have h2 := append_right_cancel_string _ _ _ h
    have h3 := congrArg String.data h2
    simp only [String.data_append] at h3
    exact String.ext (List.append_cancel_left h3)
  · intro h
    rw [h]

/-- C16 (what the code does): a successful download via a channel sets
Content-Disposition to `attachment; filename="{resource}-{channel}.tar.zst"`
with the channel name of the request path, for every request and provider,
and not with the version the channel resolved to.  At the request of
`TestDownloadChannelArchive` the channel `stable` resolves to the version
`1.0.0` and the download succeeds, yet the header names
`widget-stable.tar.zst`, not the `widget-1.0.0.tar.zst` that the ordinary
download of the version `1.0.0` sets. -/
theorem downloadChannelArchive_names_channel :
    (∀ (F : Type) (d : Deps F) (reg : Registry) (r : Request) (ch : Channel) (b : Bytes),
        reg.ReadChannel (r.PathValue "namespace") (r.PathValue "resource")
          (r.PathValue "channel") = .ok ch →
        reg.DownloadArchive (r.PathValue "namespace") (r.PathValue "resource")
          ch.Version.String = .ok b →
        (Op.downloadChannelArchive.run d reg r).w.HeaderGet "Content-Disposition"
          = "attachment; filename=\"" ++ r.PathValue "resource" ++ "-"
              ++ r.PathValue "channel" ++ ".tar.zst\""
        ∧ ((Op.downloadChannelArchive.run d reg r).w.HeaderGet "Content-Disposition"
            = (Op.downloadArchive.run d reg
                (versionArchiveRequest r (r.PathValue "namespace") (r.PathValue "resource")
                  ch.Version.String)).w.HeaderGet "Content-Disposition"
          ↔ r.PathValue "channel" = ch.Version.String))
    ∧ (Op.downloadChannelArchive.run sampleDeps testDownloadChannelArchiveRegistry
        testDownloadChannelArchiveRequest).log
      = [⟨.ReadChannel "test" "widget" "stable", none⟩,
         ⟨.DownloadArchive "test" "widget" "1.0.0", none⟩]
    ∧ (Op.downloadChannelArchive.run sampleDeps testDownloadChannelArchiveRegistry
        testDownloadChannelArchiveRequest).w.HeaderGet "Content-Disposition"
      = "attachment; filename=\"widget-stable.tar.zst\""
    ∧ (Op.downloadArchive.run sampleDeps testDownloadChannelArchiveRegistry
        (versionArchiveRequest testDownloadChannelArchiveRequest "test" "widget" "1.0.0")
        ).w.HeaderGet "Content-Disposition"
      = "attachment; filename=\"widget-1.0.0.tar.zst\""
    ∧ ¬ ((Op.downloadChannelArchive.run sampleDeps testDownloadChannelArchiveRegistry
          testDownloadChannelArchiveRequest).w.HeaderGet "Content-Disposition"
        = "attachment; filename=\"" ++ "widget" ++ "-" ++ "1.0.0" ++ ".tar.zst\"") := by
  refine ⟨?_, by decide, by decide, by decide, by decide⟩
  intro F d reg r ch b hread hdl
  exact downloadChannelArchive_disposition_eq d reg r ch b hread hdl

/-! ## The calls of a handler -/

theorem decode_log_shape {F α : Type} (d : Deps F) (dec : Bytes → F → α → α × Option GoError)
    (r : Request) (expected : MediaType) (v v1 : α) (oerr : Option GoError)
    (lg : List Invocation) (hd : decode d dec r expected v [] = (v1, oerr, lg)) :
    (lg = [] ∧ oerr.isSome = true) ∨ lg = [⟨.Decode r.Body, oerr⟩] := by
  cases hp : d.Parse (r.HeaderGet "Content-Type") with
  | error perr =>
    rw [decode_of_parse_error d dec r expected v [] perr hp] at hd
    simp only [Prod.mk.injEq] at hd
    obtain ⟨-, h2, h3⟩ := hd
    subst h2 h3
    simp
  | ok p =>
    obtain ⟨ct, k⟩ := p
    rw [decode_of_parse_ok d dec r expected v [] ct k hp] at hd
    cases hf : EqualFold d k expected
    · simp only [hf, Bool.false_eq_true, if_false, Prod.mk.injEq] at hd
      obtain ⟨-, h2, h3⟩ := hd
      subst h2 h3
      simp
    · simp only [hf, if_true, Prod.mk.injEq, List.nil_append] at hd
      obtain ⟨-, h2, h3⟩ := hd
      subst h2 h3
      simp

/-- The three shapes of the log of a handler. -/
theorem run_log_shape {F : Type} (d : Deps F) (reg : Registry) (r : Request) (op : Op) :
    ((op.decodeError d r).isSome = true
      ∧ ((op.run d reg r).log = []
        ∨ (op.run d reg r).log = [⟨.Decode r.Body, op.decodeError d r⟩]))
    ∨ (op.decodeError d r = none
      ∧ ¬ (op = .downloadChannelArchive
          ∧ (errOf (reg.ReadChannel (r.PathValue "namespace") (r.PathValue "resource")
              (r.PathValue "channel"))).isNone = true)
      ∧ ∃ c oe, ((op.run d reg r).log = [⟨c, oe⟩]
          ∨ (op.run d reg r).log = [⟨.Decode r.Body, none⟩, ⟨c, oe⟩])
        ∧ c.isProvider = true)
    ∨ (op = .downloadChannelArchive
      ∧ op.decodeError d r = none
      ∧ (errOf (reg.ReadChannel (r.PathValue "namespace") (r.PathValue "resource")
          (r.PathValue "channel"))).isNone = true
      ∧ ∃ nspace resource channel version oe,
          (op.run d reg r).log
            = [⟨.ReadChannel nspace resource channel, none⟩,
               ⟨.DownloadArchive nspace resource version, oe⟩]) := by
  cases op
  case downloadChannelArchive =>
    cases hread : reg.ReadChannel (r.PathValue "namespace") (r.PathValue "resource")
        (r.PathValue "channel") with
    | error e =>
      refine Or.inr (Or.inl ⟨rfl, by simp [errOf], ?_⟩)
      simp only [Op.run, downloadChannelArchive, hread]
      exact ⟨_, _, Or.inl rfl, rfl⟩
    | ok ch =>
      refine Or.inr (Or.inr ⟨rfl, rfl, by simp [errOf], ?_⟩)
      simp only [Op.run, downloadChannelArchive, hread]
      split
      · exact ⟨_, _, _, _, _, rfl⟩
      · exact ⟨_, _, _, _, _, rfl⟩
  case deleteNamespace | deleteResource | deleteVersion | deleteChannel
      | listNamespaces | readNamespace | listResources | readResource | listVersions
      | readVersion | uploadArchive | downloadArchive | listChannels | readChannel =>
    refine Or.inr (Or.inl ⟨rfl, by simp, ?_⟩)
    simp only [Op.run, deleteNamespace, deleteResource, deleteVersion, deleteChannel,
      listNamespaces, readNamespace, listResources, readResource, listVersions,
      readVersion, uploadArchive, downloadArchive, listChannels, readChannel]
    split
    · exact ⟨_, _, Or.inl rfl, rfl⟩
    · exact ⟨_, _, Or.inl rfl, rfl⟩
  all_goals
    simp only [Op.run, Op.decodeError, createNamespace, updateNamespace, createResource,
      updateResource, createVersion, updateVersion, createChannel, updateChannel]
    split
    · rename_i hd
      rw [hd]
      rcases decode_log_shape _ _ _ _ _ _ _ _ hd with ⟨h, -⟩ | h
      · exact Or.inl ⟨rfl, Or.inl h⟩
      · exact Or.inl ⟨rfl, Or.inr h⟩
    · rename_i hd
      rw [hd]
      rcases decode_log_shape _ _ _ _ _ _ _ _ hd with ⟨-, h⟩ | h
      · simp at h
      · subst h
        refine Or.inr (Or.inl ⟨rfl, by simp, ?_⟩)
        split
        · exact ⟨_, _, Or.inr rfl, rfl⟩
        · exact ⟨_, _, Or.inr rfl, rfl⟩

theorem failure_last_two (a b : Invocation) (ha : a.err = none) :
    ∀ (pre : List Invocation) (inv : Invocation) (post : List Invocation),
      [a, b] = pre ++ inv :: post → inv.err.isSome = true → post = [] := by
  intro pre inv post h hs
  match pre, h with
  | [], h =>
    simp only [List.nil_append, List.cons.injEq] at h
    obtain ⟨h1, -⟩ := h
    subst h1
    simp [ha] at hs
  | [x], h =>
    simp only [List.singleton_append, List.cons.injEq] at h
    exact h.2.2.symm
  | x :: y :: rest, h =>
    simp at h

theorem failure_last_one (a : Invocation) :
    ∀ (pre : List Invocation) (inv : Invocation) (post : List Invocation),
      [a] = pre ++ inv :: post → inv.err.isSome = true → post = [] := by
  intro pre inv post h _
  match pre, h with
  | [], h =>
    simp only [List.nil_append, List.cons.injEq] at h
    exact h.2.symm
  | x :: rest, h =>
    simp at h

/-- C17 as stated fails: on the request of `TestInvalidContentType` the
handler of `POST /namespaces` makes no call to the provider, and on the
request of `TestDownloadChannelArchive` the handler makes two. -/
theorem exactly_one_provider_call_counterexample :
    (Op.createNamespace.run sampleDeps mockRegistry
        testInvalidContentTypeRequest).providerCalls.length = 0
    ∧ (Op.downloadChannelArchive.run sampleDeps testDownloadChannelArchiveRegistry
        testDownloadChannelArchiveRequest).providerCalls.length = 2
    ∧ ¬ (∀ (op : Op) (reg : Registry) (r : Request),
          (op.run sampleDeps reg r).providerCalls.length = 1) := by
  refine ⟨by decide, by decide, fun h => ?_⟩
  have h1 := h .createNamespace mockRegistry testInvalidContentTypeRequest
  revert h1
  decide

/-- C17, amended: a handler makes no call to the provider when the request
body of a create or update fails to decode, two calls (`ReadChannel`, then
`DownloadArchive`) in a download via a channel whose channel resolves, and
exactly one call in every other case.  No call is made twice, and a call that
returns an error is the last call of the handler, so nothing is retried. -/
theorem provider_calls_per_request {F : Type} (d : Deps F) (reg : Registry) (r : Request)
    (op : Op) :
    (op.run d reg r).providerCalls.length
      = (if (op.decodeError d r).isSome then 0
         else if op = .downloadChannelArchive
           ∧ (errOf (reg.ReadChannel (r.PathValue "namespace") (r.PathValue "resource")
               (r.PathValue "channel"))).isNone = true then 2
         else 1)
    ∧ ((op.run d reg r).log.map (fun inv => inv.call)).Nodup
    ∧ (∀ (pre : List Invocation) (inv : Invocation) (post : List Invocation),
        (op.run d reg r).log = pre ++ inv :: post → inv.err.isSome = true → post = []) := by
  rcases run_log_shape d reg r op with ⟨hde, hl | hl⟩ | ⟨hde, hnot, c, oe, hl | hl, hc⟩
    | ⟨hop, hde, hok, nspace, resource, channel, version, oe, hl⟩
  · simp [State.providerCalls, hl, hde]
  · refine ⟨by simp [State.providerCalls, hl, hde, Call.isProvider], by simp [hl], ?_⟩
    rw [hl]
    exact failure_last_one _
  · refine ⟨?_, by simp [hl], ?_⟩
    · rw [if_neg (by simp [hde]), if_neg hnot]
      simp [State.providerCalls, hl, List.filter, hc]
    · rw [hl]
      exact failure_last_one _
  · refine ⟨?_, ?_, ?_⟩
    · have hD : (Call.Decode r.Body).isProvider = false := rfl
      rw [if_neg (by simp [hde]), if_neg hnot]
      simp [State.providerCalls, hl, List.filter, hc, hD]
    · simp only [hl, List.map, List.nodup_cons, List.mem_singleton, List.not_mem_nil,
        not_false_eq_true, List.nodup_nil, and_true]
      intro h
      rw [← h] at hc
      simp [Call.isProvider] at hc
    · rw [hl]
      exact failure_last_two _ _ rfl
  · refine ⟨?_, by simp [hl], ?_⟩
    · rw [if_neg (by simp [hde]), if_pos ⟨hop, hok⟩]
      simp [State.providerCalls, hl, List.filter, Call.isProvider]
    · rw [hl]
      exact failure_last_two _ _ rfl

/-! ## Archive upload -/

/-- C18 (what the code does): `uploadArchive` never reads the `Archive-Digest`
header; two uploads that differ only in that header make the same call to the
provider and get the same response.  At the request of `TestUploadArchive`
with the digests `sha256:aaa` and `sha256:bbb` the provider receives the path
parameters and the body both times, and no digest. -/
theorem uploadArchive_ignores_digest :
    (∀ (F : Type) (d : Deps F) (reg : Registry) (r : Request) (x y : String),
        Op.uploadArchive.run d reg (withArchiveDigest r x)
          = Op.uploadArchive.run d reg (withArchiveDigest r y))
    ∧ (withArchiveDigest testUploadArchiveRequest "sha256:aaa").HeaderGet "Archive-Digest"
        ≠ (withArchiveDigest testUploadArchiveRequest "sha256:bbb").HeaderGet "Archive-Digest"
    ∧ (Op.uploadArchive.run sampleDeps testUploadArchiveRegistry
        (withArchiveDigest testUploadArchiveRequest "sha256:aaa")).log
      = [⟨.UploadArchive "test" "widget" "1.0.0" (bytesOf "archive data"), none⟩]
    ∧ (Op.uploadArchive.run sampleDeps testUploadArchiveRegistry
        (withArchiveDigest testUploadArchiveRequest "sha256:bbb")).log
      = [⟨.UploadArchive "test" "widget" "1.0.0" (bytesOf "archive data"), none⟩] := by
  refine ⟨?_, by decide, by decide, by decide⟩
  intro F d reg r x y
  have hA : ∀ z, (withArchiveDigest r z).HeaderGet "Accept" = r.HeaderGet "Accept" := by
    intro z
    simp [withArchiveDigest, Request.HeaderGet, lookup]
  have hP : ∀ z k, (withArchiveDigest r z).PathValue k = r.PathValue k := fun _ _ => rfl
  have hB : ∀ z, (withArchiveDigest r z).Body = r.Body := fun _ => rfl
  simp only [Op.run, uploadArchive, hP, hB, failWithError_new, encode_new, hA]

/-- C19: on an archive upload with path parameters `(nspace, resource, version)`
and body `b`, the handler makes exactly one call, the provider's
`UploadArchive` with `(nspace, resource, version)` and `b`; it does not call
`codec.Decode`, and no header other than `Accept` has a part in the result,
so the Content-Type is not looked at.  When the provider returns the version
`ver` the response is 200 with the version media kind and the encoding of
`ver`; when it fails the response is the one `failWithError` writes. -/
theorem uploadArchive_passes_body {F : Type} (d : Deps F) (reg : Registry) (r : Request) :
    (Op.uploadArchive.run d reg r).log
      = [⟨.UploadArchive (r.PathValue "namespace") (r.PathValue "resource")
            (r.PathValue "version") r.Body,
          errOf (reg.UploadArchive (r.PathValue "namespace") (r.PathValue "resource")
            (r.PathValue "version") r.Body)⟩]
    ∧ Op.uploadArchive.run d reg { r with Header := [("Accept", r.HeaderGet "Accept")] }
        = Op.uploadArchive.run d reg r
    ∧ (match reg.UploadArchive (r.PathValue "namespace") (r.PathValue "resource")
          (r.PathValue "version") r.Body with
       | .ok ver =>
         (Op.uploadArchive.run d reg r).w.status = 200
         ∧ (Op.uploadArchive.run d reg r).w.HeaderGet "Content-Type"
             = d.MediaTypeVersion ++ d.Suffix (d.Negotiate (r.HeaderGet "Accept"))
         ∧ (Op.uploadArchive.run d reg r).w.body
             = (d.Encode (d.Negotiate (r.HeaderGet "Accept")) (.version ver)).1
       | .error e =>
         (Op.uploadArchive.run d reg r).w = failWithError d ResponseWriter.new r e) := by
  have hA : ({ r with Header := [("Accept", r.HeaderGet "Accept")] } : Request).HeaderGet "Accept"
      = r.HeaderGet "Accept" := by
    simp [Request.HeaderGet, lookup]
  refine ⟨?_, ?_, ?_⟩
  · simp only [Op.run, uploadArchive]
    cases reg.UploadArchive (r.PathValue "namespace") (r.PathValue "resource")
      (r.PathValue "version") r.Body <;> simp [errOf]
  · simp only [Op.run, uploadArchive, failWithError_new, encode_new, hA]
    rfl
  · cases h : reg.UploadArchive (r.PathValue "namespace") (r.PathValue "resource")
      (r.PathValue "version") r.Body with
    | error e => simp [Op.run, uploadArchive, h]
    | ok ver =>
      simp [Op.run, uploadArchive, h, encode_new, ResponseWriter.HeaderGet, lookup_head]

/-! ## The routing table -/

/-- C20: the table `NewHandler` builds has 23 entries, no two with the same
method and pattern; read as method, path and handler it is the routing table
of the specification, entry by entry, up to the names of the wildcards; and
every handler is bound exactly once, `PUT .../versions/{version}/archive` to
the upload and `GET .../channels/{channel}/archive` to the download via a
channel. -/
theorem NewHandler_is_the_routing_table :
    NewHandler.length = 23
    ∧ (NewHandler.map Prod.fst).Nodup
    ∧ NewHandler.map (fun e => (patternMethod e.1, pathShape (patternPath e.1), e.2))
        = specRoutingTable.map (fun e => (e.1, pathShape e.2.1, e.2.2))
    ∧ (NewHandler.map Prod.snd).Nodup
    ∧ (∀ op : Op, op ∈ NewHandler.map Prod.snd)
    ∧ ("PUT /namespaces/{namespace}/resources/{resource}/versions/{version}/archive",
        Op.uploadArchive) ∈ NewHandler
    ∧ ("GET /namespaces/{namespace}/resources/{resource}/channels/{channel}/archive",
        Op.downloadChannelArchive) ∈ NewHandler := by
  refine ⟨rfl, by decide, by decide, by decide, ?_, by decide, by decide⟩
  intro op
  cases op <;> decide

/-! ## Error responses -/

theorem run_decode_failure {F : Type} (d : Deps F) (reg : Registry) (r : Request) (op : Op)
    (err : GoError) (hdec : op.decodeError d r = some err) :
    (op.run d reg r).w = fail d ResponseWriter.new r .BadRequest err.Error 400 := by
  cases op <;> simp only [Op.decodeError] at hdec <;> try (exact Option.noConfusion hdec)
  all_goals
    simp only [Op.run, createNamespace, updateNamespace, createResource, updateResource,
      createVersion, updateVersion, createChannel, updateChannel]
    split
    · rename_i hd
      rw [hd] at hdec
      simp at hdec
      subst hdec
      rfl
    · rename_i hd
      rw [hd] at hdec
      simp at hdec

/-- The two ways a handler fails, with the response of each. -/
theorem run_failure_cases {F : Type} (d : Deps F) (reg : Registry) (r : Request) (op : Op)
    (hfail : op.fails d reg r = true) :
    (∃ err, op.decodeError d r = some err
      ∧ (op.run d reg r).w = fail d ResponseWriter.new r .BadRequest err.Error 400)
    ∨ (∃ inv e, inv ∈ (op.run d reg r).log ∧ inv.call.isProvider = true ∧ inv.err = some e
      ∧ (op.run d reg r).w = failWithError d ResponseWriter.new r e) := by
  cases hde : op.decodeError d r with
  | some err => exact Or.inl ⟨err, rfl, run_decode_failure d reg r op err hde⟩
  | none =>
    right
    have hany : (op.run d reg r).log.any (fun inv => inv.err.isSome) = true := by
      simpa [Op.fails, hde, State.failed] using hfail
    rw [List.any_eq_true] at hany
    obtain ⟨inv, hmem, hsome⟩ := hany
    obtain ⟨e, he⟩ := Option.isSome_iff_exists.mp hsome
    have hprov : inv.call.isProvider = true := by
      rcases run_log_shape d reg r op with ⟨h1, -⟩ | ⟨-, -, c, oe, hl | hl, hc⟩
        | ⟨-, -, -, nspace, resource, channel, version, oe, hl⟩
      · simp [hde] at h1
      · rw [hl] at hmem
        simp at hmem
        subst hmem
        exact hc
      · rw [hl] at hmem
        simp at hmem
        rcases hmem with h | h
        · subst h
          simp at he
        · subst h
          exact hc
      · rw [hl] at hmem
        simp at hmem
        rcases hmem with h | h <;> subst h <;> rfl
    exact ⟨inv, e, hmem, hprov, he, run_provider_failure d reg r op inv e hmem hprov he⟩

/-- The response of a failed handler: the result of `fail` on the fresh writer. -/
theorem run_failure_response {F : Type} (d : Deps F) (reg : Registry) (r : Request) (op : Op)
    (hfail : op.fails d reg r = true) :
    ∃ code message status,
      (op.run d reg r).w = fail d ResponseWriter.new r code message status := by
  rcases run_failure_cases d reg r op hfail with ⟨err, -, hw⟩ | ⟨inv, e, -, -, -, hw⟩
  · exact ⟨_, _, _, hw⟩
  · rw [hw]
    unfold failWithError
    cases e.asRegistry with
    | none => exact ⟨_, _, _, rfl⟩
    | some regErr => exact ⟨_, _, _, rfl⟩

/-- C21: `fail` writes every error response through `encode`, the helper that
writes the ordinary responses, with the error media kind and the error value
of the code and the message.  So when a handler fails, by a decoding error or
by an error of the provider, the Content-Type of the response is the error
media kind followed by the suffix of the format negotiated from the Accept
header, and the body is the encoding in that format of an error value. -/
theorem error_response_is_encoded_error {F : Type} (d : Deps F) (reg : Registry) (r : Request)
    (op : Op) (hfail : op.fails d reg r = true) :
    (∀ (w : ResponseWriter) (code : ErrorCode) (message : String) (status : Nat),
        fail d w r code message status
          = (encode d w r d.MediaTypeError status
              (.error { Code := code, Message := message })).1)
    ∧ (∃ code message status,
        (op.run d reg r).w
          = (encode d ResponseWriter.new r d.MediaTypeError status
              (.error { Code := code, Message := message })).1
        ∧ (op.run d reg r).w.status = status
        ∧ (op.run d reg r).w.body
          = (d.Encode (d.Negotiate (r.HeaderGet "Accept"))
              (.error { Code := code, Message := message })).1)
    ∧ (op.run d reg r).w.HeaderGet "Content-Type"
        = d.MediaTypeError ++ d.Suffix (d.Negotiate (r.HeaderGet "Accept")) := by
  obtain ⟨code, message, status, hw⟩ := run_failure_response d reg r op hfail
  refine ⟨fun _ _ _ _ => rfl, ⟨code, message, status, ?_, ?_, ?_⟩, ?_⟩
  · rw [hw]; rfl
  · rw [hw, fail_new]
  · rw [hw, fail_new]
  · rw [hw, fail_new]
    simp [ResponseWriter.HeaderGet, lookup_head]

/-- C21, at the request of `TestInvalidContentType`, a decoding failure. -/
theorem error_response_is_encoded_error_witness :
    Op.createNamespace.fails sampleDeps mockRegistry testInvalidContentTypeRequest = true
    ∧ (Op.createNamespace.run sampleDeps mockRegistry
        testInvalidContentTypeRequest).w.HeaderGet "Content-Type"
      = sampleDeps.MediaTypeError
          ++ sampleDeps.Suffix (sampleDeps.Negotiate
              (testInvalidContentTypeRequest.HeaderGet "Accept")) :=
  ⟨by decide,
   (error_response_is_encoded_error sampleDeps mockRegistry testInvalidContentTypeRequest
      .createNamespace (by decide)).2.2⟩

/-- C27: for a domain error whose code is none of the twelve codes of the
status table, `InternalError` or a code outside the enumeration,
`failWithError` responds with status 500 and the body is the encoding of the
error value with that same code and the message: the code is not replaced by
`InternalError`, as it is for an error that is not a domain error. -/
theorem failWithError_keeps_unmapped_code {F : Type} (d : Deps F) (r : Request) (c : ErrorCode)
    (m text : String)
    (hc : c ∉ [ErrorCode.BadRequest, .NotFound, .NamespaceExists, .ResourceExists,
               .VersionExists, .ChannelExists, .NamespaceNotEmpty, .ResourceHasPublished,
               .VersionPublished, .PreconditionFailed, .UnsupportedMediaType,
               .NotAcceptable]) :
    (failWithError d ResponseWriter.new r (.registry { Code := c, Message := m } text)).status
      = 500
    ∧ (failWithError d ResponseWriter.new r (.registry { Code := c, Message := m } text)).body
      = (d.Encode (d.Negotiate (r.HeaderGet "Accept")) (.error { Code := c, Message := m })).1
    ∧ (failWithError d ResponseWriter.new r (.plain text)).body
      = (d.Encode (d.Negotiate (r.HeaderGet "Accept"))
          (.error { Code := .InternalError, Message := text })).1 := by
  have hs : errorCodeToHTTPStatus c = 500 := by
    cases c <;> simp [errorCodeToHTTPStatus] at hc ⊢
  simp [failWithError_new, GoError.asRegistry, GoError.Error, hs]

/-- C27, for a domain error with a code outside the enumeration. -/
theorem failWithError_keeps_unmapped_code_witness :
    ErrorCode.other "quota_exceeded"
      ∉ [ErrorCode.BadRequest, .NotFound, .NamespaceExists, .ResourceExists,
         .VersionExists, .ChannelExists, .NamespaceNotEmpty, .ResourceHasPublished,
         .VersionPublished, .PreconditionFailed, .UnsupportedMediaType, .NotAcceptable]
    ∧ (failWithError sampleDeps ResponseWriter.new testNotFoundRequest
        (.registry { Code := .other "quota_exceeded", Message := "over quota" } "q")).status
      = 500
    ∧ (failWithError sampleDeps ResponseWriter.new testNotFoundRequest
        (.registry { Code := .other "quota_exceeded", Message := "over quota" } "q")).body
      = (sampleDeps.Encode (sampleDeps.Negotiate (testNotFoundRequest.HeaderGet "Accept"))
          (.error { Code := .other "quota_exceeded", Message := "over quota" })).1 :=
  ⟨by decide,
   (failWithError_keeps_unmapped_code sampleDeps testNotFoundRequest (.other "quota_exceeded")
      "over quota" "q" (by decide)).1,
   (failWithError_keeps_unmapped_code sampleDeps testNotFoundRequest (.other "quota_exceeded")
      "over quota" "q" (by decide)).2.1⟩

/-- C28: when a handler fails, by a decoding error or by an error of the
provider, the only header of the response is the Content-Type, which is the
error media kind with the negotiated suffix: there is no Location header and
no Content-Disposition header, and a download handler does not advertise the
archive media type. -/
theorem error_response_has_no_success_metadata {F : Type} (d : Deps F) (reg : Registry)
    (r : Request) (op : Op) (hfail : op.fails d reg r = true) :
    (op.run d reg r).w.header
      = [("Content-Type", d.MediaTypeError ++ d.Suffix (d.Negotiate (r.HeaderGet "Accept")))]
    ∧ (op.run d reg r).w.hasHeader "Location" = false
    ∧ (op.run d reg r).w.hasHeader "Content-Disposition" = false
    ∧ (op.run d reg r).w.HeaderGet "Content-Type"
        = d.MediaTypeError ++ d.Suffix (d.Negotiate (r.HeaderGet "Accept")) := by
  obtain ⟨code, message, status, hw⟩ := run_failure_response d reg r op hfail
  rw [hw, fail_new]
  simp [ResponseWriter.hasHeader, ResponseWriter.HeaderGet, lookup_head]

/-- C28, at the request of `TestDownloadArchiveNotFound`: a download that
fails sets no Content-Disposition. -/
theorem error_response_has_no_success_metadata_witness :
    Op.downloadArchive.fails sampleDeps
        (downloadArchiveFails
          (.registry { Code := .NotFound, Message := "archive not found" } "nf"))
        testDownloadArchiveRequest = true
    ∧ (Op.downloadArchive.run sampleDeps
        (downloadArchiveFails
          (.registry { Code := .NotFound, Message := "archive not found" } "nf"))
        testDownloadArchiveRequest).w.hasHeader "Content-Disposition" = false :=
  ⟨by decide,
   (error_response_has_no_success_metadata sampleDeps
      (downloadArchiveFails
        (.registry { Code := .NotFound, Message := "archive not found" } "nf"))
      testDownloadArchiveRequest .downloadArchive (by decide)).2.2.1⟩

/-! ## The statuses of the responses -/

theorem run_success_status {F : Type} (d : Deps F) (reg : Registry) (r : Request) (op : Op)
    (hok : op.fails d reg r = false) :
    (op.run d reg r).w.status ∈ [200, 201, 204] := by
  cases op
  case downloadChannelArchive =>
    simp only [Op.fails, State.failed, Op.decodeError, Op.run, downloadChannelArchive] at hok ⊢
    split at hok
    · simp at hok
    · split at hok
      · simp at hok
      · simp [ResponseWriter.HeaderSet, ResponseWriter.new, ResponseWriter.Write,
          ResponseWriter.WriteHeader]
  case deleteNamespace | deleteResource | deleteVersion | deleteChannel =>
    simp only [Op.fails, State.failed, Op.decodeError, Op.run, deleteNamespace, deleteResource,
      deleteVersion, deleteChannel] at hok ⊢
    split at hok
    · simp at hok
    · simp [ResponseWriter.new, ResponseWriter.WriteHeader]
  case listNamespaces | readNamespace | listResources | readResource | listVersions | readVersion
      | uploadArchive | listChannels | readChannel =>
    simp only [Op.fails, State.failed, Op.decodeError, Op.run, listNamespaces, readNamespace,
      listResources, readResource, listVersions, readVersion, uploadArchive, listChannels,
      readChannel] at hok ⊢
    split at hok
    · simp at hok
    · simp [encode_new]
  case downloadArchive =>
    simp only [Op.fails, State.failed, Op.decodeError, Op.run, downloadArchive] at hok ⊢
    split at hok
    · simp at hok
    · simp [ResponseWriter.HeaderSet, ResponseWriter.new, ResponseWriter.Write,
        ResponseWriter.WriteHeader]
  all_goals
    simp only [Op.fails, State.failed, Op.decodeError, Op.run, createNamespace, updateNamespace,
      createResource, updateResource, createVersion, updateVersion, createChannel,
      updateChannel] at hok ⊢
    split at hok
    · rename_i hd
      rw [hd] at hok
      simp at hok
    · split at hok
      · simp at hok
      · first
        | (simp [encode_new]; done)
        | (rw [encode_fresh _ _ _ _ _ _ (by simp [ResponseWriter.HeaderSet, ResponseWriter.new])]
           simp)

/-- C25: the status of the response of every handler is one of 200, 201,
204, 400, 404, 406, 409, 412, 415 and 500.  When the handler does not fail
it is 200, 201 or 204; when it fails it is 400 or a value of
`errorCodeToHTTPStatus`, and every value of `errorCodeToHTTPStatus` is one of
400, 404, 406, 409, 412, 415 and 500. -/
theorem response_status_set {F : Type} (d : Deps F) (reg : Registry) (r : Request) (op : Op) :
    (op.run d reg r).w.status ∈ [200, 201, 204, 400, 404, 406, 409, 412, 415, 500]
    ∧ (if op.fails d reg r = true then
        ((op.run d reg r).w.status = 400
          ∨ ∃ c, (op.run d reg r).w.status = errorCodeToHTTPStatus c)
       else (op.run d reg r).w.status ∈ [200, 201, 204])
    ∧ (∀ c, errorCodeToHTTPStatus c ∈ [400, 404, 406, 409, 412, 415, 500]) := by
  have hrange := errorCodeToHTTPStatus_range
  cases hf : op.fails d reg r with
  | false =>
    have hs := run_success_status d reg r op hf
    refine ⟨?_, by simpa using hs, hrange⟩
    simp only [List.mem_cons, List.mem_singleton, List.not_mem_nil, or_false] at hs ⊢
    omega
  | true =>
    have hcase : (op.run d reg r).w.status = 400
        ∨ ∃ c, (op.run d reg r).w.status = errorCodeToHTTPStatus c := by
      rcases run_failure_cases d reg r op hf with ⟨err, -, hw⟩ | ⟨inv, e, -, -, -, hw⟩
      · left
        rw [hw, fail_new]
      · right
        rw [hw, failWithError_new]
        cases e.asRegistry with
        | none => exact ⟨.InternalError, rfl⟩
        | some regErr => exact ⟨regErr.Code, rfl⟩
    refine ⟨?_, by simpa using hcase, hrange⟩
    rcases hcase with h | ⟨c, h⟩
    · rw [h]; decide
    · rw [h]
      have := hrange c
      simp only [List.mem_cons, List.mem_singleton, List.not_mem_nil, or_false] at this ⊢
      omega

/-! ## The arguments of the provider calls -/

theorem filter_provider_decode_log {F α : Type} (d : Deps F)
    (dec : Bytes → F → α → α × Option GoError) (r : Request) (expected : MediaType) (v v1 : α)
    (oerr : Option GoError) (lg : List Invocation)
    (hd : decode d dec r expected v [] = (v1, oerr, lg)) :
    lg.filter (fun inv => inv.call.isProvider) = [] := by
  rw [List.filter_eq_nil_iff]
  intro inv hinv
  simp [decode_log_of_eq d dec r expected v v1 oerr lg hd inv hinv]

/-! ## The Location of a created entity -/

theorem createNamespace_location {F : Type} (d : Deps F) (reg : Registry) (r : Request)
    (info : NamespaceInfo) (log : List Invocation) (ns : Namespace)
    (hdec : decode d d.DecodeNamespaceInfo r d.MediaTypeNamespaceInfo NamespaceInfo.zero []
      = (info, none, log))
    (hcreate : reg.CreateNamespace info = .ok ns) :
    (Op.createNamespace.run d reg r).w.HeaderGet "Location"
      = JoinPath d "/namespaces" [ns.Name] := by
  simp only [Op.run, createNamespace, hdec, hcreate]
  rw [encode_fresh _ _ _ _ _ _ (by simp [ResponseWriter.HeaderSet, ResponseWriter.new])]
  simp [ResponseWriter.HeaderGet, ResponseWriter.HeaderSet, ResponseWriter.new, lookup]

theorem createResource_location {F : Type} (d : Deps F) (reg : Registry) (r : Request)
    (info : ResourceInfo) (log : List Invocation) (res : Resource)
    (hdec : decode d d.DecodeResourceInfo r d.MediaTypeResourceInfo ResourceInfo.zero []
      = (info, none, log))
    (hcreate : reg.CreateResource (r.PathValue "namespace") info = .ok res) :
    (Op.createResource.run d reg r).w.HeaderGet "Location"
      = JoinPath d "/namespaces" [r.PathValue "namespace", "resources", res.Name] := by
  simp only [Op.run, createResource, hdec, hcreate]
  rw [encode_fresh _ _ _ _ _ _ (by simp [ResponseWriter.HeaderSet, ResponseWriter.new])]
  simp [ResponseWriter.HeaderGet, ResponseWriter.HeaderSet, ResponseWriter.new, lookup]

theorem createVersion_location {F : Type} (d : Deps F) (reg : Registry) (r : Request)
    (info : VersionInfo) (log : List Invocation) (ver : Version)
    (hdec : decode d d.DecodeVersionInfo r d.MediaTypeVersionInfo VersionInfo.zero []
      = (info, none, log))
    (hcreate : reg.CreateVersion (r.PathValue "namespace") (r.PathValue "resource") info
      = .ok ver) :
    (Op.createVersion.run d reg r).w.HeaderGet "Location"
      = JoinPath d "/namespaces"
          [r.PathValue "namespace", "resources", r.PathValue "resource", "versions",
           ver.String] := by
  simp only [Op.run, createVersion, hdec, hcreate]
  rw [encode_fresh _ _ _ _ _ _ (by simp [ResponseWriter.HeaderSet, ResponseWriter.new])]
  simp [ResponseWriter.HeaderGet, ResponseWriter.HeaderSet, ResponseWriter.new, lookup]

/-- C29: the Location of a successful create is joined from the identifier of
the entity the provider returned: for `createNamespace` the name of the
returned namespace, so that for a valid name it is `/namespaces/` followed by
that name whatever name the request body carries; for `createResource` and
`createVersion` the path parameters of the request and the name of the
returned resource, the string of the returned version.  The decoded body does
not occur in it. -/
theorem location_from_returned_entity {F : Type} (d : Deps F) (reg : Registry)
    (r1 r2 r3 : Request) (info1 : NamespaceInfo) (info2 : ResourceInfo) (info3 : VersionInfo)
    (log1 log2 log3 : List Invocation) (ns : Namespace) (res : Resource) (ver : Version)
    (hdec1 : decode d d.DecodeNamespaceInfo r1 d.MediaTypeNamespaceInfo NamespaceInfo.zero []
      = (info1, none, log1))
    (hcreate1 : reg.CreateNamespace info1 = .ok ns)
    (hname : validIdentifier ns.Name = true)
    (hdec2 : decode d d.DecodeResourceInfo r2 d.MediaTypeResourceInfo ResourceInfo.zero []
      = (info2, none, log2))
    (hcreate2 : reg.CreateResource (r2.PathValue "namespace") info2 = .ok res)
    (hdec3 : decode d d.DecodeVersionInfo r3 d.MediaTypeVersionInfo VersionInfo.zero []
      = (info3, none, log3))
    (hcreate3 : reg.CreateVersion (r3.PathValue "namespace") (r3.PathValue "resource") info3
      = .ok ver) :
    (Op.createNamespace.run d reg r1).w.HeaderGet "Location" = "/namespaces/" ++ ns.Name
    ∧ (Op.createNamespace.run d reg r1).w.HeaderGet "Location"
        = JoinPath d "/namespaces" [ns.Name]
    ∧ (Op.createResource.run d reg r2).w.HeaderGet "Location"
        = JoinPath d "/namespaces" [r2.PathValue "namespace", "resources", res.Name]
    ∧ (Op.createVersion.run d reg r3).w.HeaderGet "Location"
        = JoinPath d "/namespaces"
            [r3.PathValue "namespace", "resources", r3.PathValue "resource", "versions",
             ver.String] := by
  have h1 := createNamespace_location d reg r1 info1 log1 ns hdec1 hcreate1
  refine ⟨?_, h1, createResource_location d reg r2 info2 log2 res hdec2 hcreate2,
    createVersion_location d reg r3 info3 log3 ver hdec3 hcreate3⟩
  rw [h1, JoinPath_namespaces d _ (by simp [plainSegment_of_validIdentifier _ hname])]
  rfl

/-- C29, against a provider that renames what it creates: the body names the
namespace `acme`, the provider returns `acme-2`, and the Location is
`/namespaces/acme-2`. -/
theorem location_from_returned_entity_witness :
    (decode sampleDeps sampleDeps.DecodeNamespaceInfo testCreateNamespaceRequest
        sampleDeps.MediaTypeNamespaceInfo NamespaceInfo.zero []).1.Name = "acme"
    ∧ validIdentifier "acme-2" = true
    ∧ (Op.createNamespace.run sampleDeps renamingRegistry
        testCreateNamespaceRequest).w.HeaderGet "Location" = "/namespaces/" ++ "acme-2"
    ∧ (Op.createVersion.run sampleDeps renamingRegistry
        testCreateVersionRequest).w.HeaderGet "Location"
        = JoinPath sampleDeps "/namespaces"
            [testCreateVersionRequest.PathValue "namespace", "resources",
             testCreateVersionRequest.PathValue "resource", "versions", "2.0.0"] :=
  have h := location_from_returned_entity sampleDeps renamingRegistry
    testCreateNamespaceRequest testCreateResourceRequest testCreateVersionRequest
    { Name := "acme", Description := "" } { Name := "widget", Typ := "", Description := "" }
    { String := "1.0.0" }
    [⟨.Decode testCreateNamespaceRequest.Body, none⟩]
    [⟨.Decode testCreateResourceRequest.Body, none⟩]
    [⟨.Decode testCreateVersionRequest.Body, none⟩]
    { Name := "acme-2", Description := "", CreatedAt := 0, UpdatedAt := 0 }
    { Namespace := "test", Name := "widget-2", Typ := "", Description := "",
      CreatedAt := 0, UpdatedAt := 0 }
    { Namespace := "test", Resource := "widget", String := "2.0.0",
      CreatedAt := 0, UpdatedAt := 0 }
    rfl rfl (by decide) rfl rfl rfl rfl
  ⟨by decide, by decide, h.1, h.2.2.2⟩

/-! ## Negotiation -/

theorem withAccept_HeaderGet_Accept (r : Request) (a : String) :
    (withAccept r a).HeaderGet "Accept" = a := by
  simp [withAccept, Request.HeaderGet, lookup]

theorem withAccept_HeaderGet_ContentType (r : Request) (a : String) :
    (withAccept r a).HeaderGet "Content-Type" = r.HeaderGet "Content-Type" := by
  simp [withAccept, Request.HeaderGet, lookup]

theorem decode_withAccept {F α : Type} (d : Deps F) (dec : Bytes → F → α → α × Option GoError)
    (r : Request) (a : String) (expected : MediaType) (v : α) (log : List Invocation) :
    decode d dec (withAccept r a) expected v log = decode d dec r expected v log := by
  have hB : (withAccept r a).Body = r.Body := rfl
  simp only [decode, withAccept_HeaderGet_ContentType, hB]

/-- C23: `encode` sets the Content-Type to the media kind followed by the
suffix of the format that `codec.Negotiate` returns for the Accept header.
With the negotiation and the suffixes of the specification, an Accept of
`application/json` gives a Content-Type that is the media kind and `+json`,
an Accept of `application/yaml` the media kind and `+yaml`, and an absent,
an empty or a `*/*` Accept the media kind and `+json`, the baseline. -/
theorem encode_content_type :
    (∀ (F : Type) (d : Deps F) (w : ResponseWriter) (r : Request) (kind : MediaType)
        (status : Nat) (v : Value),
        (encode d { w with wroteHeader := false } r kind status v).1.HeaderGet "Content-Type"
          = kind ++ d.Suffix (d.Negotiate (r.HeaderGet "Accept")))
    ∧ (specNegotiate "application/json" = some .json
        ∧ specNegotiate "application/yaml" = some .yaml
        ∧ specNegotiate (testListNamespacesRequest.HeaderGet "Accept") = some .json
        ∧ specNegotiate "" = some .json
        ∧ specNegotiate "*/*" = some .json)
    ∧ (∀ (onFailure : Format) (r : Request) (kind : MediaType) (status : Nat) (v : Value),
        (encode (specDeps onFailure) ResponseWriter.new (withAccept r "application/json")
            kind status v).1.HeaderGet "Content-Type" = kind ++ "+json"
        ∧ (encode (specDeps onFailure) ResponseWriter.new (withAccept r "application/yaml")
            kind status v).1.HeaderGet "Content-Type" = kind ++ "+yaml"
        ∧ (encode (specDeps onFailure) ResponseWriter.new testListNamespacesRequest
            kind status v).1.HeaderGet "Content-Type" = kind ++ "+json"
        ∧ (encode (specDeps onFailure) ResponseWriter.new (withAccept r "")
            kind status v).1.HeaderGet "Content-Type" = kind ++ "+json"
        ∧ (encode (specDeps onFailure) ResponseWriter.new (withAccept r "*/*")
            kind status v).1.HeaderGet "Content-Type" = kind ++ "+json")
    ∧ (∀ onFailure : Format,
        (Op.listNamespaces.run (specDeps onFailure) mockRegistry
            (withAccept testListNamespacesRequest "application/json")).w.HeaderGet "Content-Type"
          = (specDeps onFailure).MediaTypeNamespaceList ++ "+json"
        ∧ (Op.listNamespaces.run (specDeps onFailure) mockRegistry
            (withAccept testListNamespacesRequest "application/yaml")).w.HeaderGet "Content-Type"
          = (specDeps onFailure).MediaTypeNamespaceList ++ "+yaml") := by
  have hj : specNegotiate "application/json" = some .json := by decide
  have hy : specNegotiate "application/yaml" = some .yaml := by decide
  have he : specNegotiate "" = some .json := by decide
  have hs : specNegotiate "*/*" = some .json := by decide
  have hN : ∀ (fb : Format) (a : String) (f : Format), specNegotiate a = some f →
      (specDeps fb).Negotiate a = f := by
    intro fb a f h
    simp [specDeps, h]
  have hS : ∀ (fb : Format) (f : Format), (specDeps fb).Suffix f = specSuffix f :=
    fun _ _ => rfl
  refine ⟨?_, ⟨hj, hy, he, he, hs⟩, ?_, ?_⟩
  · intro F d w r kind status v
    rw [encode_fresh _ _ _ _ _ _ rfl]
    simp [ResponseWriter.HeaderGet, lookup_head]
  · intro fb r kind status v
    have hA : testListNamespacesRequest.HeaderGet "Accept" = "" := rfl
    simp only [encode_new, ResponseWriter.HeaderGet, lookup_head, withAccept_HeaderGet_Accept,
      hA, hN fb _ _ hj, hN fb _ _ hy, hN fb _ _ he, hN fb _ _ hs, hS]
    simp [specSuffix]
  · intro fb
    cases fb <;> exact ⟨by decide, by decide⟩

theorem run_withAccept {F : Type} (d : Deps F) (reg : Registry) (r : Request) (op : Op)
    (a : String) :
    (op.run d reg (withAccept r a)).w.status = (op.run d reg r).w.status
    ∧ (op.run d reg (withAccept r a)).log = (op.run d reg r).log := by
  have hP : ∀ k, (withAccept r a).PathValue k = r.PathValue k := fun _ => rfl
  have hB : (withAccept r a).Body = r.Body := rfl
  cases op
  case downloadChannelArchive =>
    simp only [Op.run, downloadChannelArchive, hP]
    split
    · simp [failWithError_new]
    · split
      · simp [failWithError_new]
      · simp [ResponseWriter.HeaderSet, ResponseWriter.new, ResponseWriter.Write,
          ResponseWriter.WriteHeader]
  case deleteNamespace | deleteResource | deleteVersion | deleteChannel =>
    simp only [Op.run, deleteNamespace, deleteResource, deleteVersion, deleteChannel, hP]
    split <;> simp [failWithError_new]
  case listNamespaces | readNamespace | listResources | readResource | listVersions | readVersion
      | uploadArchive | listChannels | readChannel =>
    simp only [Op.run, listNamespaces, readNamespace, listResources, readResource, listVersions,
      readVersion, uploadArchive, listChannels, readChannel, hP, hB]
    split <;> simp [failWithError_new, encode_new]
  case downloadArchive =>
    simp only [Op.run, downloadArchive, hP]
    split
    · simp [failWithError_new]
    · simp [ResponseWriter.HeaderSet, ResponseWriter.new, ResponseWriter.Write,
        ResponseWriter.WriteHeader]
  all_goals
    simp only [Op.run, createNamespace, updateNamespace, createResource, updateResource,
      createVersion, updateVersion, createChannel, updateChannel, hP, decode_withAccept]
    split
    · simp [fail_new]
    · split
      · simp [failWithError_new]
      · first
        | (simp [encode_new]; done)
        | (rw [encode_fresh _ _ _ _ _ _ (by simp [ResponseWriter.HeaderSet, ResponseWriter.new]),
             encode_fresh _ _ _ _ _ _ (by simp [ResponseWriter.HeaderSet, ResponseWriter.new])]
           simp)

theorem errorCodeToHTTPStatus_eq_406 (c : ErrorCode) (h : errorCodeToHTTPStatus c = 406) :
    c = .NotAcceptable := by
  cases c <;> simp [errorCodeToHTTPStatus] at h ⊢

/-- C22 as stated fails: the Accept header `application/xml, text/html;q=0.9`
lists only formats the server does not support, so that the negotiation of
the specification fails, yet the response to `GET /namespaces` has status
200, with every codec, and not 406. -/
theorem not_acceptable_counterexample :
    specNegotiate "application/xml, text/html;q=0.9" = none
    ∧ (∀ (F : Type) (d : Deps F),
        (Op.listNamespaces.run d mockRegistry
          (withAccept testListNamespacesRequest "application/xml, text/html;q=0.9")).w.status
          = 200)
    ∧ ¬ ((Op.listNamespaces.run (specDeps .json) mockRegistry
          (withAccept testListNamespacesRequest "application/xml, text/html;q=0.9")).w.status
          = 406) := by
  refine ⟨by decide, ?_, by decide⟩
  intro F d
  simp [Op.run, listNamespaces, mockRegistry, encode_new]

/-- C22, amended: the status of the response and the calls of the handler do
not depend on the Accept header, so a request whose Accept header lists only
unsupported formats gets the status it would get with any other Accept
header.  Status 406 is written only when a call to the provider fails with a
domain error of code `NotAcceptable`, for which `failWithError` writes 406
with that code; the status of a decoding failure is 400. -/
theorem status_independent_of_accept {F : Type} (d : Deps F) (reg : Registry) (r : Request)
    (op : Op) (a : String) :
    (op.run d reg (withAccept r a)).w.status = (op.run d reg r).w.status
    ∧ (op.run d reg (withAccept r a)).log = (op.run d reg r).log
    ∧ ((op.run d reg r).w.status = 406 →
        ∃ inv m t, inv ∈ (op.run d reg r).log ∧ inv.call.isProvider = true
          ∧ inv.err = some (.registry { Code := .NotAcceptable, Message := m } t))
    ∧ (∀ m t : String,
        (failWithError d ResponseWriter.new r
          (.registry { Code := .NotAcceptable, Message := m } t)).status = 406
        ∧ (failWithError d ResponseWriter.new r
          (.registry { Code := .NotAcceptable, Message := m } t)).body
          = (d.Encode (d.Negotiate (r.HeaderGet "Accept"))
              (.error { Code := .NotAcceptable, Message := m })).1)
    ∧ ((op.decodeError d r).isSome = true → (op.run d reg r).w.status = 400) := by
  refine ⟨(run_withAccept d reg r op a).1, (run_withAccept d reg r op a).2, ?_, ?_, ?_⟩
  · intro h406
    cases hf : op.fails d reg r with
    | false =>
      have hs := run_success_status d reg r op hf
      rw [h406] at hs
      simp at hs
    | true =>
      rcases run_failure_cases d reg r op hf with ⟨err, -, hw⟩ | ⟨inv, e, hmem, hprov, he, hw⟩
      · rw [hw, fail_new] at h406
        simp at h406
      · rw [hw, failWithError_new] at h406
        cases e with
        | plain text => simp [GoError.asRegistry] at h406
        | wrapError text inner => simp [GoError.asRegistry] at h406
        | registry re text =>
          simp only [GoError.asRegistry] at h406
          have hc := errorCodeToHTTPStatus_eq_406 re.Code h406
          obtain ⟨c, m⟩ := re
          simp only at hc
          subst hc
          exact ⟨inv, m, text, hmem, hprov, he⟩
  · intro m t
    simp [failWithError_new, GoError.asRegistry, errorCodeToHTTPStatus]
  · intro hsome
    obtain ⟨err, herr⟩ := Option.isSome_iff_exists.mp hsome
    rw [run_decode_failure d reg r op err herr, fail_new]

/-! ## What is handed to the provider -/

theorem errOf_map {α β : Type} (f : α → β) (x : Except GoError α) :
    errOf (x.map f) = errOf x := by
  cases x <;> rfl

theorem except_map_injective {α β : Type} (f : α → β) (hf : Function.Injective f)
    (x y : Except GoError α) (h : x.map f = y.map f) : x = y := by
  cases x <;> cases y <;> simp [Except.map] at h ⊢
  · exact h
  · exact hf h

theorem delete_reply_injective (x y : Option GoError)
    (h : (match x with
          | some e => (Except.error e : Except GoError Reply)
          | none => .ok .nothing)
        = (match y with
          | some e => .error e
          | none => .ok .nothing)) : x = y := by
  cases x <;> cases y <;> simp at h ⊢
  exact h

/-- Every call to the provider in the log of a handler carries the error
that the provider returns when it performs that very call. -/
theorem run_calls_err {F : Type} (d : Deps F) (reg : Registry) (r : Request) (op : Op) :
    ∀ inv ∈ (op.run d reg r).providerCalls, inv.err = errOf (reg.perform inv.call) := by
  intro inv hmem
  simp only [State.providerCalls, List.mem_filter] at hmem
  obtain ⟨hmem, hprov⟩ := hmem
  cases op
  case downloadChannelArchive =>
    simp only [Op.run, downloadChannelArchive] at hmem
    split at hmem
    · rename_i he
      simp at hmem
      subst hmem
      simp [Registry.perform, he, errOf, Except.map]
    · rename_i he
      split at hmem
      · rename_i he2
        simp at hmem
        rcases hmem with h | h <;> subst h <;> simp [Registry.perform, he, he2, errOf, Except.map]
      · rename_i he2
        simp at hmem
        rcases hmem with h | h <;> subst h <;> simp [Registry.perform, he, he2, errOf, Except.map]
  case deleteNamespace | deleteResource | deleteVersion | deleteChannel
      | listNamespaces | readNamespace | listResources | readResource | listVersions
      | readVersion | uploadArchive | downloadArchive | listChannels | readChannel =>
    simp only [Op.run, deleteNamespace, deleteResource, deleteVersion, deleteChannel,
      listNamespaces, readNamespace, listResources, readResource, listVersions,
      readVersion, uploadArchive, downloadArchive, listChannels, readChannel] at hmem
    split at hmem
    · rename_i he
      simp at hmem
      subst hmem
      simp [Registry.perform, he, errOf, Except.map]
    · rename_i he
      simp at hmem
      subst hmem
      simp [Registry.perform, he, errOf, Except.map]
  all_goals
    simp only [Op.run, createNamespace, updateNamespace, createResource, updateResource,
      createVersion, updateVersion, createChannel, updateChannel] at hmem
    split at hmem
    · rename_i hd
      have hl := decode_log_of_eq _ _ _ _ _ _ _ _ hd inv hmem
      simp [hl] at hprov
    · rename_i hd
      have hl := decode_log_of_eq _ _ _ _ _ _ _ _ hd
      split at hmem
      · rename_i he
        simp at hmem
        rcases hmem with h | h
        · simp [hl inv h] at hprov
        · subst h
          simp [Registry.perform, he, errOf, Except.map]
      · rename_i he
        simp at hmem
        rcases hmem with h | h
        · simp [hl inv h] at hprov
        · subst h
          simp [Registry.perform, he, errOf, Except.map]

/-- The first call to the provider in the log of a handler. -/
theorem run_first_call {F : Type} (d : Deps F) (reg : Registry) (r : Request) (op : Op) :
    (op.run d reg r).providerCalls.head?.map (fun inv => inv.call)
      = if (op.decodeError d r).isSome then none else some (op.firstCallSpec d r) := by
  cases op
  case downloadChannelArchive =>
    simp only [Op.run, downloadChannelArchive, State.providerCalls, Op.decodeError,
      Op.firstCallSpec]
    split
    · simp [Call.isProvider]
    · split <;> simp [Call.isProvider]
  case deleteNamespace | deleteResource | deleteVersion | deleteChannel
      | listNamespaces | readNamespace | listResources | readResource | listVersions
      | readVersion | uploadArchive | downloadArchive | listChannels | readChannel =>
    simp only [Op.run, deleteNamespace, deleteResource, deleteVersion, deleteChannel,
      listNamespaces, readNamespace, listResources, readResource, listVersions,
      readVersion, uploadArchive, downloadArchive, listChannels, readChannel,
      State.providerCalls, Op.decodeError, Op.firstCallSpec]
    split <;> simp [Call.isProvider]
  all_goals
    simp only [Op.run, createNamespace, updateNamespace, createResource, updateResource,
      createVersion, updateVersion, createChannel, updateChannel,
      State.providerCalls, Op.decodeError, Op.firstCallSpec]
    split
    · rename_i hd
      have hf := filter_provider_decode_log _ _ _ _ _ _ _ _ hd
      rw [hd]
      simp [hf]
    · rename_i hd
      have hf := filter_provider_decode_log _ _ _ _ _ _ _ _ hd
      rw [hd]
      split
      · rw [List.filter_append, hf]
        simp [List.filter, Call.isProvider]
      · rw [List.filter_append, hf]
        simp [List.filter, Call.isProvider]

/-- The response and the log of a handler depend on the provider only through
what it answers to the calls in the log. -/
theorem run_depends_on_calls {F : Type} (d : Deps F) (reg reg2 : Registry) (r : Request)
    (op : Op)
    (h : ∀ inv ∈ (op.run d reg r).providerCalls, reg2.perform inv.call = reg.perform inv.call) :
    op.run d reg2 r = op.run d reg r := by
  have hp : op.decodeError d r = none →
      reg2.perform (op.firstCallSpec d r) = reg.perform (op.firstCallSpec d r) := by
    intro hde
    have hfc := run_first_call d reg r op
    rw [hde] at hfc
    simp only [Option.isSome_none, Bool.false_eq_true, if_false] at hfc
    cases hl : (op.run d reg r).providerCalls with
    | nil => rw [hl] at hfc; simp at hfc
    | cons inv rest =>
      rw [hl] at hfc
      simp only [List.head?_cons, Option.map_some', Option.some.injEq] at hfc
      have := h inv (by rw [hl]; exact List.mem_cons_self _ _)
      rw [hfc] at this
      exact this
  cases op
  case downloadChannelArchive =>
    have hp1 := hp rfl
    simp only [Op.firstCallSpec, Registry.perform] at hp1
    have hx := except_map_injective _ (fun a b hab => by simpa using hab) _ _ hp1
    simp only [Op.run, downloadChannelArchive, hx]
    split
    · rfl
    · rename_i ch he
      have hp2 := h ⟨.DownloadArchive (r.PathValue "namespace") (r.PathValue "resource")
          ch.Version.String,
        errOf (reg.DownloadArchive (r.PathValue "namespace") (r.PathValue "resource")
          ch.Version.String)⟩ (by
            simp only [Op.run, downloadChannelArchive, he, State.providerCalls]
            cases reg.DownloadArchive (r.PathValue "namespace") (r.PathValue "resource")
              ch.Version.String <;> simp [errOf, Call.isProvider])
      simp only [Registry.perform] at hp2
      have hy := except_map_injective _ (fun a b hab => by simpa using hab) _ _ hp2
      rw [hy]
  case deleteNamespace | deleteResource | deleteVersion | deleteChannel =>
    have hp1 := hp rfl
    simp only [Op.firstCallSpec, Registry.perform] at hp1
    have hx := delete_reply_injective _ _ hp1
    simp only [Op.run, deleteNamespace, deleteResource, deleteVersion, deleteChannel, hx]
  case listNamespaces | readNamespace | listResources | readResource | listVersions
      | readVersion | uploadArchive | downloadArchive | listChannels | readChannel =>
    have hp1 := hp rfl
    simp only [Op.firstCallSpec, Registry.perform] at hp1
    have hx := except_map_injective _ (fun a b hab => by simpa using hab) _ _ hp1
    simp only [Op.run, listNamespaces, readNamespace, listResources, readResource,
      listVersions, readVersion, uploadArchive, downloadArchive, listChannels, readChannel, hx]
  all_goals
    simp only [Op.run, createNamespace, updateNamespace, createResource, updateResource,
      createVersion, updateVersion, createChannel, updateChannel]
    split
    · rfl
    · rename_i hd
      have hp1 := hp (by simp [Op.decodeError, hd])
      simp only [Op.firstCallSpec, Registry.perform, hd] at hp1
      have hx := except_map_injective _ (fun a b hab => by simpa using hab) _ _ hp1
      rw [hx]

/-- C26: every handler hands the path parameters of the request, as
`r.PathValue` returns them, to the provider in the order namespace, resource,
version or channel, and a create or an update hands it the value decoded from
the body as well; nothing is validated or normalised.  In full:
(1) the first call a handler makes to the provider, which it makes unless the
body fails to decode, is the method of its operation at these arguments;
(2) the error logged with a call is the error the provider returns for that
method at the arguments the call carries;
(3) response and log depend on the provider only through what it answers to
the calls in the log, so two providers that agree on these calls get the same
response, however they differ at other arguments (the same strings in another
order, another decoded value);
(4) whatever the strings `nspace`, `resource` and `version` in the path,
`readVersion` makes one call, `ReadVersion` with exactly these three, and logs
what the provider answers to it;
(5) against a provider that knows the version `(n2, r2, v2)` only,
`readVersion` answers 200 when the path parameters are these three in this
order and 404 when they are not;
(6) against the provider of `TestReadVersion`, which returns a version made of
its three arguments, the body is the encoding of the version made of the three
path parameters;
(7) against the provider of `TestUpdateResource`, which returns a resource made
of its arguments, the body of an update whose body decodes is the encoding of
the resource made of the two path parameters and the decoded value;
(8) at the request of `TestReadVersion` the provider that knows
`(test, widget, 1.0.0)` only answers 200 and the one that knows
`(1.0.0, widget, test)` only answers 404. -/
theorem path_parameters_passed_unchanged {F : Type} (d : Deps F) (reg : Registry) (r : Request)
    (op : Op) :
    ((op.run d reg r).providerCalls.head?.map (fun inv => inv.call)
      = if (op.decodeError d r).isSome then none else some (op.firstCallSpec d r))
    ∧ (∀ inv ∈ (op.run d reg r).providerCalls, inv.err = errOf (reg.perform inv.call))
    ∧ (∀ reg2 : Registry,
        (∀ inv ∈ (op.run d reg r).providerCalls,
          reg2.perform inv.call = reg.perform inv.call) →
        op.run d reg2 r = op.run d reg r)
    ∧ (∀ nspace resource version : String,
        (Op.readVersion.run d reg (versionArchiveRequest r nspace resource version)).log
          = [⟨.ReadVersion nspace resource version,
              errOf (reg.ReadVersion nspace resource version)⟩])
    ∧ (∀ nspace resource version n2 r2 v2 : String,
        (Op.readVersion.run d (readVersionOnly n2 r2 v2)
            (versionArchiveRequest r nspace resource version)).w.status
          = if nspace = n2 ∧ resource = r2 ∧ version = v2 then 200 else 404)
    ∧ (∀ nspace resource version : String,
        (Op.readVersion.run d testReadVersionRegistry
            (versionArchiveRequest r nspace resource version)).w.body
          = (d.Encode (d.Negotiate (r.HeaderGet "Accept"))
              (.version { Namespace := nspace, Resource := resource, String := version,
                          CreatedAt := 1234567890, UpdatedAt := 0 })).1)
    ∧ ((decode d d.DecodeResourceInfo r d.MediaTypeResourceInfo ResourceInfo.zero []).2.1
          = none →
        (Op.updateResource.run d testUpdateResourceRegistry r).w.body
          = (d.Encode (d.Negotiate (r.HeaderGet "Accept"))
              (.resource
                { Namespace := r.PathValue "namespace", Name := r.PathValue "resource",
                  Typ := (decode d d.DecodeResourceInfo r d.MediaTypeResourceInfo
                    ResourceInfo.zero []).1.Typ,
                  Description := (decode d d.DecodeResourceInfo r d.MediaTypeResourceInfo
                    ResourceInfo.zero []).1.Description,
                  CreatedAt := 1234567890, UpdatedAt := 0 })).1)
    ∧ ((Op.readVersion.run sampleDeps (readVersionOnly "test" "widget" "1.0.0")
          testReadVersionRequest).w.status = 200
      ∧ (Op.readVersion.run sampleDeps (readVersionOnly "1.0.0" "widget" "test")
          testReadVersionRequest).w.status = 404
      ∧ (Op.readVersion.run sampleDeps testReadVersionRegistry testReadVersionRequest).log
          = [⟨.ReadVersion "test" "widget" "1.0.0", none⟩]) := by
  refine ⟨run_first_call d reg r op, run_calls_err d reg r op,
    fun reg2 h => run_depends_on_calls d reg reg2 r op h, ?_, ?_, ?_, ?_,
    by decide, by decide, by decide⟩
  · intro nspace resource version
    obtain ⟨h1, h2, h3⟩ := versionArchiveRequest_PathValue r nspace resource version
    simp only [Op.run, readVersion, h1, h2, h3]
    split <;> rename_i he <;> simp [he, errOf]
  · intro nspace resource version n2 r2 v2
    obtain ⟨h1, h2, h3⟩ := versionArchiveRequest_PathValue r nspace resource version
    simp only [Op.run, readVersion, h1, h2, h3, readVersionOnly]
    by_cases hc : nspace = n2 ∧ resource = r2 ∧ version = v2
    · simp only [if_pos hc]
      rw [encode_new]
    · simp only [if_neg hc]
      rw [failWithError_new]
      simp [GoError.asRegistry, errorCodeToHTTPStatus]
  · intro nspace resource version
    obtain ⟨h1, h2, h3⟩ := versionArchiveRequest_PathValue r nspace resource version
    have hA : (versionArchiveRequest r nspace resource version).HeaderGet "Accept"
        = r.HeaderGet "Accept" := rfl
    simp only [Op.run, readVersion, h1, h2, h3, testReadVersionRegistry]
    rw [encode_new, hA]
  · intro hok
    simp only [Op.run, updateResource, testUpdateResourceRegistry]
    split
    · rename_i hd
      rw [hd] at hok
      exact Option.noConfusion hok
    · rename_i hd
      rw [hd, encode_new]

end Hub
